import Mathlib

/-!
Verification development for the call/conversation orchestration engine:
the Twilio webhook handler (`src/app/api/twilio/webhook/route.ts`), the
conversational response engine (`src/lib/cohere.ts`), the heuristic grade
parser (`src/lib/gradeParser.ts`) and the structured extraction pipeline
(`src/lib/gradeExtractorOpenAI.ts`), shallowly embedded in Lean.

Modelling conventions:
* JavaScript strings are Lean `String`s; character-level operations are done
  on `List Char` because the kernel reduces those (the built-in `String.trim`
  and `String.toLower` do not reduce definitionally).
* JavaScript numbers are modelled by `JsNumber`, a record of the parsed
  decimal literal (sign, integer part, fraction digits).  No claim observes
  float arithmetic or the identification of distinct decimal spellings.
  `NaN`-valued optional fields are modelled as `none`.
* The Prisma database is an explicit record of tables (lists in creation
  order); `findFirst`/`findUnique` are `List.find?`, `update` maps over the
  table.  Relational `include`s become explicit foreign-key lookups.
* External services (Cohere, OpenAI) and the wall clock are an explicit
  environment value; a storage failure is modelled at try-block granularity:
  the failing block performs no writes and control continues at the
  corresponding catch, which is exactly what the source's catch blocks make
  observable in the HTTP response.
-/

/-! ## Basic string helpers (JS semantics on `List Char`) -/

/-- JavaScript whitespace characters (the ones relevant to ASCII input). -/
def isJsSpace (c : Char) : Bool :=
  c == ' ' || c == '\t' || c == '\n' || c == '\r' || c.toNat == 11 || c.toNat == 12

/-- JS `String.prototype.trim` on a character list. -/
def trimL (s : List Char) : List Char :=
  ((s.dropWhile isJsSpace).reverse.dropWhile isJsSpace).reverse

/-- Lower-casing, `c => c.toLowerCase()` per character (ASCII adequate here). -/
def lowerL (s : List Char) : List Char := s.map Char.toLower

/-- Whether `needle` occurs as a contiguous substring of `hay` (JS `String.includes`). -/
def isInfixOfL (needle hay : List Char) : Bool :=
  match hay with
  | [] => needle.isEmpty
  | _ :: t => List.isPrefixOf needle hay || isInfixOfL needle t

/-- JS `haystack.toLowerCase().includes(pat)` where `pat` is already lower-case. -/
def inclLower (haystack : String) (pat : String) : Bool :=
  isInfixOfL pat.toList (lowerL haystack.toList)

/-- JS string truthiness: `undefined`/`null` and the empty string are falsy. -/
def jsTruthy : Option String → Bool
  | none => false
  | some s => s != ""

/-- JS `a || b` for an optional string with a string default. -/
def jsOr (a : Option String) (b : String) : String :=
  match a with
  | some s => if s = "" then b else s
  | none => b

/-- JS falsiness of the `SpeechResult` form value (`null` or `""`). -/
def speechFalsy : Option String → Bool
  | none => true
  | some s => s == ""

/-! ## JS numbers -/

/-- A JavaScript number as the decimal literal it was parsed from.  The
claims only carry these values around and compare them, so the decimal
record (rather than a float) is a faithful shallow model. -/
structure JsNumber where
  neg : Bool
  intPart : Nat
  fracDigits : List Nat
deriving DecidableEq, Repr

/-- Convenience constructor for whole numbers. -/
def JsNumber.ofNat (n : Nat) : JsNumber := ⟨false, n, []⟩

def digitVal (c : Char) : Nat := c.toNat - '0'.toNat

def digitsToNat (ds : List Char) : Nat :=
  ds.foldl (fun a c => a * 10 + digitVal c) 0

/-- JS `Number(string)` restricted to optionally signed decimal literals;
any other shape (which the sources never produce) is `NaN`, i.e. `none`. -/
def parseDecimal (s0 : List Char) : Option JsNumber :=
  let s := trimL s0
  let signAndRest : Bool × List Char :=
    match s with
    | '-' :: t => (true, t)
    | '+' :: t => (false, t)
    | _ => (false, s)
  let rest := signAndRest.2
  let ds := rest.takeWhile Char.isDigit
  let tail := rest.drop ds.length
  match tail with
  | [] => if ds.isEmpty then none else some ⟨signAndRest.1, digitsToNat ds, []⟩
  | '.' :: fs =>
    if fs.all Char.isDigit && (!ds.isEmpty || !fs.isEmpty) then
      some ⟨signAndRest.1, digitsToNat ds, fs.map digitVal⟩
    else none
  | _ => none

/-! ## A tiny backtracking regex engine

`gradeParser.ts` is written against JavaScript regexes.  The patterns it
uses need only: character classes with bounded greedy repetition, literals
(case-insensitive under the `/i` flag), ordered alternation, greedy `?`,
and named groups.  `mtch` enumerates candidate matches in exactly the JS
backtracking preference order (greedy longest-first, alternatives in
written order, optional-present first), and `searchCaps` implements the
unanchored leftmost-match search of `String.prototype.match`. -/

inductive Rx where
  | eps
  | cls (p : Char → Bool) (lo hi : Nat)
  | lits (s : List Char) (ci : Bool)
  | seq (a b : Rx)
  | alt (a b : Rx)
  | opt (r : Rx)
  | grp (tag : String) (r : Rx)

/-- Effectively-unbounded repetition count for `+` and `*`. -/
def jsMaxRep : Nat := 1000000

/-- Match a literal (optionally case-insensitively) against a prefix. -/
def litsMatch (s : List Char) (ci : Bool) (inp : List Char) : Option (List Char) :=
  match s, inp with
  | [], _ => some inp
  | _ :: _, [] => none
  | a :: s2, b :: inp2 =>
    if (if ci then a.toLower == b.toLower else a == b) then litsMatch s2 ci inp2 else none

/-- Length of the maximal run of class characters, capped at `hi`. -/
def clsRun (p : Char → Bool) : Nat → List Char → Nat
  | 0, _ => 0
  | _, [] => 0
  | hi + 1, c :: t => if p c then clsRun p hi t + 1 else 0

/-- Candidate consumption counts for a greedy bounded repetition:
`n, n-1, …, lo` (empty when `n < lo`). -/
def countsDesc (lo n : Nat) : List Nat :=
  if n < lo then [] else (List.range (n + 1 - lo)).map (fun i => n - i)

abbrev Caps := List (String × List Char)

/-- All candidate matches of `r` at the head of `inp`, with remaining input
and captures, in JS backtracking preference order. -/
def mtch : Rx → List Char → Caps → List (List Char × Caps)
  | .eps, inp, caps => [(inp, caps)]
  | .lits s ci, inp, caps =>
    match litsMatch s ci inp with
    | some rest => [(rest, caps)]
    | none => []
  | .cls p lo hi, inp, caps =>
    (countsDesc lo (clsRun p hi inp)).map (fun k => (inp.drop k, caps))
  | .seq a b, inp, caps => (mtch a inp caps).flatMap (fun rc => mtch b rc.1 rc.2)
  | .alt a b, inp, caps => mtch a inp caps ++ mtch b inp caps
  | .opt r, inp, caps => mtch r inp caps ++ [(inp, caps)]
  | .grp tag r, inp, caps =>
    (mtch r inp caps).map (fun rc => (rc.1, (tag, inp.take (inp.length - rc.1.length)) :: rc.2))

/-- Unanchored leftmost match (JS `str.match(re)`): captures of the first
position at which a match exists, preferred candidate first. -/
def searchCaps (r : Rx) : List Char → Option Caps
  | [] => ((mtch r [] []).head?).map (fun rc => rc.2)
  | c :: t =>
    match (mtch r (c :: t) []).head? with
    | some rc => some rc.2
    | none => searchCaps r t

/-- Group lookup `m.groups[tag]`: `none` models an unmatched (undefined) group. -/
def capLookup (caps : Caps) (tag : String) : Option (List Char) :=
  (caps.find? (fun p => p.1 == tag)).map (fun p => p.2)

/-- JS `String.prototype.split(sep)` for a separator regex that always
consumes at least one character: leftmost-first scanning.  Fuel is the
input length, which bounds the number of steps. -/
def splitGo (sep : Rx) : Nat → List Char → List Char → List (List Char)
  | 0, pending, s => [pending ++ s]
  | _ + 1, pending, [] => [pending]
  | fuel + 1, pending, c :: t =>
    match (mtch sep (c :: t) []).head? with
    | some rc =>
      if rc.1.length < (c :: t).length then pending :: splitGo sep fuel [] rc.1
      else splitGo sep fuel (pending ++ [c]) t
    | none => splitGo sep fuel (pending ++ [c]) t

def splitRx (sep : Rx) (s : List Char) : List (List Char) :=
  splitGo sep (s.length + 1) [] s

/-- Right-nested sequence of a list of regexes. -/
def rxSeq (l : List Rx) : Rx := l.foldr Rx.seq .eps

/-- Left-to-right alternation of a non-empty list of regexes. -/
def rxAlt (l : List Rx) : Rx :=
  match l with
  | [] => .eps
  | [r] => r
  | r :: rest => .alt r (rxAlt rest)

def rxLit (s : String) (ci : Bool) : Rx := .lits s.toList ci

/-! ## The heuristic grade parser (`src/lib/gradeParser.ts`) -/

/-- Class `[A-Za-z'\- ]` (letters, apostrophe, hyphen, space). -/
def nameChar (c : Char) : Bool :=
  c.isAlpha || c.toNat == 39 || c == '-' || c == ' '

/-- Class `[A-Za-z &]`. -/
def subjChar (c : Char) : Bool := c.isAlpha || c == ' ' || c == '&'

/-- Class `[A-Za-z0-9\-]`. -/
def clsNameChar (c : Char) : Bool := c.isAlphanum || c == '-'

/-- Class `[;\.|\n]`. -/
def sepChar (c : Char) : Bool := c == ';' || c == '.' || c == '|' || c == '\n'

/-- Class `[:\-]`. -/
def colonDash (c : Char) : Bool := c == ':' || c == '-'

/-- Pattern `\d{1,3}(?:\.\d+)?` -/
def gradeNumRx : Rx :=
  rxSeq [.cls Char.isDigit 1 3, .opt (rxSeq [rxLit "." false, .cls Char.isDigit 1 jsMaxRep])]

/-- Pattern `/(?<name>[A-Za-z'\- ]{2,50})\s+(?:got|has|scored|scored\s+an|received)?\s*(?<grade>\d{1,3}(?:\.\d+)?)\s*(?:in|for)?\s*(?<subject>[A-Za-z &]+)?/i` -/
def gradeRegex1 : Rx :=
  rxSeq [.grp "name" (.cls nameChar 2 50),
         .cls isJsSpace 1 jsMaxRep,
         .opt (rxAlt [rxLit "got" true, rxLit "has" true, rxLit "scored" true,
                      rxSeq [rxLit "scored" true, .cls isJsSpace 1 jsMaxRep, rxLit "an" true],
                      rxLit "received" true]),
         .cls isJsSpace 0 jsMaxRep,
         .grp "grade" gradeNumRx,
         .cls isJsSpace 0 jsMaxRep,
         .opt (rxAlt [rxLit "in" true, rxLit "for" true]),
         .cls isJsSpace 0 jsMaxRep,
         .opt (.grp "subject" (.cls subjChar 1 jsMaxRep))]

/-- Pattern `/(?<name>[A-Za-z'\- ]{2,50})[:\-]\s*(?<subject>[A-Za-z &]+)\s*(?<grade>\d{1,3}(?:\.\d+)?)/i` -/
def gradeRegex2 : Rx :=
  rxSeq [.grp "name" (.cls nameChar 2 50),
         .cls colonDash 1 1,
         .cls isJsSpace 0 jsMaxRep,
         .grp "subject" (.cls subjChar 1 jsMaxRep),
         .cls isJsSpace 0 jsMaxRep,
         .grp "grade" gradeNumRx]

/-- Pattern `/(?<subject>[A-Za-z &]+)\s+(?<name>[A-Za-z'\- ]{2,50})\s*(?<grade>\d{1,3}(?:\.\d+)?)/i` -/
def gradeRegex3 : Rx :=
  rxSeq [.grp "subject" (.cls subjChar 1 jsMaxRep),
         .cls isJsSpace 1 jsMaxRep,
         .grp "name" (.cls nameChar 2 50),
         .cls isJsSpace 0 jsMaxRep,
         .grp "grade" gradeNumRx]

/-- Pattern `/(?<name>[A-Za-z'\- ]{2,50})\s+(?<grade>\d{1,3}(?:\.\d+)?)/` (no `/i`). -/
def gradeFallbackRx : Rx :=
  rxSeq [.grp "name" (.cls nameChar 2 50),
         .cls isJsSpace 1 jsMaxRep,
         .grp "grade" gradeNumRx]

/-- Pattern `/class\s+([A-Za-z0-9\-]+)/i`; the single positional group is tagged `cap1`. -/
def classNameRx : Rx :=
  rxSeq [rxLit "class" true, .cls isJsSpace 1 jsMaxRep, .grp "cap1" (.cls clsNameChar 1 jsMaxRep)]

/-- The split separator `/[;\.|\n]| and |, and |,\s+/i`. -/
def gradeSepRx : Rx :=
  rxAlt [.cls sepChar 1 1, rxLit " and " true, rxLit ", and " true,
         rxSeq [rxLit "," false, .cls isJsSpace 1 jsMaxRep]]

structure ParsedGradeEntry where
  studentName : String
  subject : Option String
  grade : Option JsNumber
deriving DecidableEq, Repr

structure ParsedGradesResult where
  className : Option String
  entries : List ParsedGradeEntry
deriving DecidableEq, Repr

/-- The per-part entry construction of `parseGrades` for `gradeRegex1..3`:
`studentName = (groups.name || '').trim()`, `subject = (groups.subject || '').trim() || undefined`,
`grade = gradeStr ? Number(gradeStr) : undefined`, pushed only `if (studentName)`. -/
def entryFromCaps (caps : Caps) : Option ParsedGradeEntry :=
  let studentName := trimL ((capLookup caps "name").getD [])
  let subjectT := trimL ((capLookup caps "subject").getD [])
  let subject : Option String := if subjectT = [] then none else some (String.mk subjectT)
  let gradeStr := trimL ((capLookup caps "grade").getD [])
  let grade := if gradeStr = [] then none else parseDecimal gradeStr
  if studentName = [] then none else some ⟨String.mk studentName, subject, grade⟩

/-- Try `gradeRegex1`, `gradeRegex2`, `gradeRegex3` in order; the loop
`break`s at the first regex whose match has a non-empty trimmed name. -/
def tryGradeRegexes : List Rx → List Char → Option ParsedGradeEntry
  | [], _ => none
  | rx :: rest, part =>
    match searchCaps rx part with
    | some caps =>
      match entryFromCaps caps with
      | some e => some e
      | none => tryGradeRegexes rest part
    | none => tryGradeRegexes rest part

/-- Entries contributed by one separator-split part of the utterance. -/
def partEntries (part : List Char) : List ParsedGradeEntry :=
  match tryGradeRegexes [gradeRegex1, gradeRegex2, gradeRegex3] part with
  | some e => [e]
  | none =>
    match searchCaps gradeFallbackRx part with
    | some caps =>
      [⟨String.mk (trimL ((capLookup caps "name").getD [])), none,
        parseDecimal ((capLookup caps "grade").getD [])⟩]
    | none => []

/-- Function `parseGrades` from `src/lib/gradeParser.ts`. -/
def parseGrades (text : String) : ParsedGradesResult :=
  if text = "" then ⟨none, []⟩
  else
    let className :=
      (searchCaps classNameRx text.toList).bind (fun caps =>
        (capLookup caps "cap1").map String.mk)
    let parts := ((splitRx gradeSepRx text.toList).map trimL).filter (fun p => p ≠ [])
    let entries := parts.foldl (fun acc part => acc ++ partEntries part) []
    ⟨className, entries⟩

/-! ## JSON (for the structured extraction pipeline)

`gradeExtractorOpenAI.ts` feeds the model's raw text through `JSON.parse`.
`parseJson` is a fuel-bounded recursive-descent parser for JSON values
(strings with escapes, numbers, arrays, objects, literals); the fuel is
amply larger than the input length, which bounds the recursion depth. -/

def lbrace : Char := Char.ofNat 123
def rbrace : Char := Char.ofNat 125

inductive JVal where
  | jnull
  | jbool (b : Bool)
  | jnum (n : JsNumber)
  | jstr (s : String)
  | jarr (xs : List JVal)
  | jobj (fields : List (String × JVal))

/-- JSON whitespace (space, tab, LF, CR). -/
def isJsonWs (c : Char) : Bool :=
  c == ' ' || c == '\t' || c == '\n' || c == '\r'

def jsonWsSkip (s : List Char) : List Char := s.dropWhile isJsonWs

def hexVal (c : Char) : Option Nat :=
  let n := c.toNat
  if 48 ≤ n ∧ n ≤ 57 then some (n - 48)
  else if 97 ≤ n ∧ n ≤ 102 then some (n - 87)
  else if 65 ≤ n ∧ n ≤ 70 then some (n - 55)
  else none

/-- Body of a JSON string after the opening quote; returns the decoded
characters and the input after the closing quote. -/
def parseJStrBody : Nat → List Char → Option (List Char × List Char)
  | 0, _ => none
  | _ + 1, [] => none
  | fuel + 1, c :: t =>
    if c == '"' then some ([], t)
    else if c == '\\' then
      match t with
      | [] => none
      | e :: t2 =>
        let dec : Option (Char × List Char) :=
          if e == '"' then some ('"', t2)
          else if e == '\\' then some ('\\', t2)
          else if e == '/' then some ('/', t2)
          else if e == 'b' then some (Char.ofNat 8, t2)
          else if e == 'f' then some (Char.ofNat 12, t2)
          else if e == 'n' then some ('\n', t2)
          else if e == 'r' then some ('\r', t2)
          else if e == 't' then some ('\t', t2)
          else if e == 'u' then
            match t2 with
            | h1 :: h2 :: h3 :: h4 :: t3 =>
              match hexVal h1, hexVal h2, hexVal h3, hexVal h4 with
              | some a, some b, some c2, some d =>
                some (Char.ofNat (((a * 16 + b) * 16 + c2) * 16 + d), t3)
              | _, _, _, _ => none
            | _ => none
          else none
        match dec with
        | some (ch, rest) => (parseJStrBody fuel rest).map (fun p => (ch :: p.1, p.2))
        | none => none
    else (parseJStrBody fuel t).map (fun p => (c :: p.1, p.2))

/-- A JSON number at the head of the input (`-?digits(.digits)?((e|E)(+|-)?digits)?`).
The exponent is consumed but not represented beyond its digits' presence;
no source value carries an exponent. -/
def parseJNum (s : List Char) : Option (JsNumber × List Char) :=
  let signAndRest : Bool × List Char :=
    match s with
    | '-' :: t => (true, t)
    | _ => (false, s)
  let rest := signAndRest.2
  let ds := rest.takeWhile Char.isDigit
  if ds.isEmpty then none
  else
    let afterInt := rest.drop ds.length
    let fracAndRest : List Char × List Char :=
      match afterInt with
      | '.' :: fs =>
        let fds := fs.takeWhile Char.isDigit
        if fds.isEmpty then ([], afterInt) else (fds, fs.drop fds.length)
      | _ => ([], afterInt)
    let afterFrac := fracAndRest.2
    let afterExp : Option (List Char) :=
      match afterFrac with
      | e :: t =>
        if e == 'e' || e == 'E' then
          let t2 := match t with
            | '+' :: u => u
            | '-' :: u => u
            | _ => t
          let eds := t2.takeWhile Char.isDigit
          if eds.isEmpty then none else some (t2.drop eds.length)
        else some afterFrac
      | [] => some afterFrac
    match afterExp with
    | none => none
    | some tail =>
      if (match afterInt with | '.' :: fs => fracAndRest.1.isEmpty && !(fs.takeWhile Char.isDigit).isEmpty | _ => false)
      then none
      else some (⟨signAndRest.1, digitsToNat ds, fracAndRest.1.map digitVal⟩, tail)

mutual

def parseJV : Nat → List Char → Option (JVal × List Char)
  | 0, _ => none
  | fuel + 1, s0 =>
    let s := jsonWsSkip s0
    match s with
    | [] => none
    | c :: t =>
      if c == 'n' then
        match litsMatch "ull".toList false t with
        | some rest => some (.jnull, rest)
        | none => none
      else if c == 't' then
        match litsMatch "rue".toList false t with
        | some rest => some (.jbool true, rest)
        | none => none
      else if c == 'f' then
        match litsMatch "alse".toList false t with
        | some rest => some (.jbool false, rest)
        | none => none
      else if c == '"' then
        (parseJStrBody fuel t).map (fun p => (.jstr (String.mk p.1), p.2))
      else if c == '[' then
        let t2 := jsonWsSkip t
        match t2 with
        | ']' :: rest => some (.jarr [], rest)
        | _ => (parseArrItems fuel t).map (fun p => (.jarr p.1, p.2))
      else if c == lbrace then
        let t2 := jsonWsSkip t
        match t2 with
        | d :: rest =>
          if d == rbrace then some (.jobj [], rest)
          else (parseObjItems fuel t).map (fun p => (.jobj p.1, p.2))
        | [] => none
      else
        (parseJNum s).map (fun p => (.jnum p.1, p.2))

def parseArrItems : Nat → List Char → Option (List JVal × List Char)
  | 0, _ => none
  | fuel + 1, s =>
    match parseJV fuel s with
    | none => none
    | some (v, rest) =>
      match jsonWsSkip rest with
      | ']' :: rest2 => some ([v], rest2)
      | ',' :: rest2 =>
        (parseArrItems fuel rest2).map (fun p => (v :: p.1, p.2))
      | _ => none

def parseObjItems : Nat → List Char → Option (List (String × JVal) × List Char)
  | 0, _ => none
  | fuel + 1, s =>
    match jsonWsSkip s with
    | '"' :: t =>
      match parseJStrBody fuel t with
      | none => none
      | some (key, rest) =>
        match jsonWsSkip rest with
        | ':' :: rest2 =>
          match parseJV fuel rest2 with
          | none => none
          | some (v, rest3) =>
            match jsonWsSkip rest3 with
            | ',' :: rest4 =>
              (parseObjItems fuel rest4).map (fun p => ((String.mk key, v) :: p.1, p.2))
            | d :: rest4 =>
              if d == rbrace then some ([(String.mk key, v)], rest4) else none
            | [] => none
        | _ => none
    | _ => none

end

/-- Parse as `JSON.parse` does: a full JSON document (no trailing garbage). -/
def parseJson (s : String) : Option JVal :=
  match parseJV (s.length * 4 + 16) s.toList with
  | some (v, rest) => if jsonWsSkip rest = [] then some v else none
  | none => none

/-- JS property lookup on a parsed JSON object; with duplicate keys
`JSON.parse` keeps the last occurrence, hence the reversed search. -/
def jfield (fields : List (String × JVal)) (k : String) : Option JVal :=
  (fields.reverse.find? (fun p => p.1 == k)).map (fun p => p.2)

/-- JS `String(x)` for `missing` array items.  Only string items occur in
practice and no claim observes the other cases, rendered approximately. -/
def jvalToDisplay : JVal → String
  | .jstr s => s
  | .jbool true => "true"
  | .jbool false => "false"
  | .jnull => "null"
  | .jnum n => (if n.neg then "-" else "") ++ Nat.repr n.intPart
  | .jarr _ => ""
  | .jobj _ => "[object Object]"

/-! ## The structured extraction pipeline (`src/lib/gradeExtractorOpenAI.ts`) -/

structure AIGradeEntry where
  studentName : String
  subject : Option String
  grade : Option JsNumber
deriving DecidableEq, Repr

structure AIExtractResult where
  className : Option String
  entries : List AIGradeEntry
  missing : Option (List String)
  assistantReply : Option String
deriving DecidableEq, Repr

/-- Outcome of the raced OpenAI chat-completion call. -/
inductive OpenAIOutcome where
  | ok (content : Option String)
  | timeout
  | errored
deriving DecidableEq, Repr

/-- The defensive `empty` result of `extractGradesWithOpenAI`. -/
def emptyExtract : AIExtractResult :=
  ⟨none, [], none, some "I could not parse any grades. Could you repeat them more clearly?"⟩

/-- Match `raw.match(/\x7b[\s\S]*\x7d/)`: greedy, so from the first opening brace
to the last closing brace at or after it; no match leaves `raw` unchanged. -/
def jsonCandidate (raw : List Char) : List Char :=
  let suff := raw.dropWhile (fun c => !(c == lbrace))
  let rev := suff.reverse.dropWhile (fun c => !(c == rbrace))
  if rev = [] then raw else rev.reverse

/-- Replacement `jsonText.replace(/\'/g, '"')`. -/
def quoteFix (s : List Char) : List Char :=
  s.map (fun c => if c.toNat == 39 then '"' else c)

/-- One entry of `parsedObj['entries']`.  In JS, `typeof e === 'object'`
also admits arrays, but those have no string `studentName` property and are
skipped the same way, so only `jobj` yields an entry. -/
def extractEntryStep (acc : List AIGradeEntry) (e : JVal) : List AIGradeEntry :=
  match e with
  | .jobj efs =>
    let studentName :=
      match jfield efs "studentName" with
      | some (.jstr s) => String.mk (trimL s.toList)
      | _ => ""
    let subject : Option String :=
      match jfield efs "subject" with
      | some (.jstr s) => some s
      | _ => none
    let grade : Option JsNumber :=
      match jfield efs "grade" with
      | some (.jnum n) => some n
      | some (.jstr s) =>
        if String.mk (trimL s.toList) ≠ "" then parseDecimal s.toList else none
      | _ => none
    if studentName ≠ "" then acc ++ [⟨studentName, subject, grade⟩] else acc
  | _ => acc

/-- Function `extractGradesWithOpenAI` from `src/lib/gradeExtractorOpenAI.ts`, with
the raced completion call abstracted into an `OpenAIOutcome`.  The `catch`
handles both the timeout rejection and any other failure identically. -/
def extractGradesWithOpenAI (text : String) (o : OpenAIOutcome) : AIExtractResult :=
  if text = "" || String.mk (trimL text.toList) = "" then emptyExtract
  else
    match o with
    | .timeout =>
      { emptyExtract with assistantReply := some "I am having trouble parsing that right now. Could you repeat?" }
    | .errored =>
      { emptyExtract with assistantReply := some "I am having trouble parsing that right now. Could you repeat?" }
    | .ok none => emptyExtract
    | .ok (some raw) =>
      let jsonText := jsonCandidate raw.toList
      let parsed? : Option JVal :=
        match parseJson (String.mk jsonText) with
        | some v => some v
        | none => parseJson (String.mk (quoteFix jsonText))
      match parsed? with
      | none =>
        { emptyExtract with assistantReply := some "I had trouble extracting structured grades. Could you rephrase?" }
      | some parsedUnknown =>
        let fields := match parsedUnknown with
          | .jobj fs => fs
          | _ => []
        let assistantReply0 : Option String :=
          match jfield fields "assistantReply" with
          | some (.jstr s) => some s
          | _ => none
        let className : Option String :=
          match jfield fields "className" with
          | some (.jstr s) => some s
          | _ => none
        let entries : List AIGradeEntry :=
          match jfield fields "entries" with
          | some (.jarr es) => es.foldl extractEntryStep []
          | _ => []
        let missing : Option (List String) :=
          match jfield fields "missing" with
          | some (.jarr xs) => some (xs.map jvalToDisplay)
          | _ => none
        let assistantReply :=
          if jsTruthy assistantReply0 then assistantReply0
          else some "I parsed the grades â€” do you want to add more?"
        ⟨className, entries, missing, assistantReply⟩

/-! ## The persisted data model (Prisma tables)

Tables are lists in creation order; `findFirst`/`findUnique` are
`List.find?` (Prisma's selection order is unspecified; creation order is
the deterministic choice the spec suggests), `update` maps over the table,
`create` appends with a fresh id drawn from `nextId`. -/

structure User where
  id : Nat
  phone : String
  role : String
  status : String
deriving DecidableEq, Repr

structure Call where
  id : Nat
  twilioCallSid : String
  userId : Nat
  status : String
  assignedCounselorId : Option Nat
  conversationId : Option Nat
  endedAt : Option Nat
deriving DecidableEq, Repr

structure Conversation where
  id : Nat
  userId : Nat
deriving DecidableEq, Repr

structure Message where
  id : Nat
  conversationId : Nat
  role : String
  content : String
deriving DecidableEq, Repr

structure Escalation where
  id : Nat
  callId : Nat
  counselorId : Nat
  notes : String
deriving DecidableEq, Repr

structure Classroom where
  id : Nat
  name : String
  teacherId : Nat
deriving DecidableEq, Repr

structure Student where
  id : Nat
  name : String
  classroomId : Option Nat
deriving DecidableEq, Repr

structure GradeRow where
  id : Nat
  studentId : Nat
  subject : String
  value : JsNumber
deriving DecidableEq, Repr

structure Db where
  users : List User
  calls : List Call
  conversations : List Conversation
  messages : List Message
  escalations : List Escalation
  classrooms : List Classroom
  students : List Student
  grades : List GradeRow
  nextId : Nat
deriving DecidableEq, Repr

def findCallBySid (db : Db) (sid : String) : Option Call :=
  db.calls.find? (fun c => c.twilioCallSid == sid)

def findCallById (db : Db) (cid : Nat) : Option Call :=
  db.calls.find? (fun c => c.id == cid)

def findUserByPhone (db : Db) (phone : String) : Option User :=
  db.users.find? (fun u => u.phone == phone)

def findUserById (db : Db) (uid : Nat) : Option User :=
  db.users.find? (fun u => u.id == uid)

def findConvById (db : Db) (cv : Nat) : Option Conversation :=
  db.conversations.find? (fun c => c.id == cv)

/-- Lookup `prisma.message.findFirst({ where: { conversationId, role, content } })`. -/
def findMsg (db : Db) (cv : Nat) (role content : String) : Option Message :=
  db.messages.find? (fun m => m.conversationId == cv && m.role == role && m.content == content)

/-- Function `findAvailableCounselor` from the webhook route. -/
def findAvailableCounselor (db : Db) : Option User :=
  db.users.find? (fun u => u.role == "counselor" && u.status == "available")

def updateCall (db : Db) (cid : Nat) (f : Call → Call) : Db :=
  { db with calls := db.calls.map (fun c => if c.id == cid then f c else c) }

def updateUser (db : Db) (uid : Nat) (f : User → User) : Db :=
  { db with users := db.users.map (fun u => if u.id == uid then f u else u) }

/-- Create `prisma.user.create` as used by the webhook (role `'user'`; the schema's
status default is not part of the sources under `src/`; no claim observes a
non-counselor's status, any value is claim-equivalent). -/
def addUser (db : Db) (phone role : String) : Db × User :=
  let u : User := ⟨db.nextId, phone, role, "available"⟩
  ({ db with users := db.users ++ [u], nextId := db.nextId + 1 }, u)

def addConversation (db : Db) (userId : Nat) : Db × Conversation :=
  let c : Conversation := ⟨db.nextId, userId⟩
  ({ db with conversations := db.conversations ++ [c], nextId := db.nextId + 1 }, c)

def addCall (db : Db) (userId : Nat) (sid status : String) (cv : Option Nat) : Db × Call :=
  let c : Call := ⟨db.nextId, sid, userId, status, none, cv, none⟩
  ({ db with calls := db.calls ++ [c], nextId := db.nextId + 1 }, c)

def addMessage (db : Db) (cv : Nat) (role content : String) : Db × Message :=
  let m : Message := ⟨db.nextId, cv, role, content⟩
  ({ db with messages := db.messages ++ [m], nextId := db.nextId + 1 }, m)

def addEscalation (db : Db) (callId counselorId : Nat) (notes : String) : Db × Escalation :=
  let e : Escalation := ⟨db.nextId, callId, counselorId, notes⟩
  ({ db with escalations := db.escalations ++ [e], nextId := db.nextId + 1 }, e)

def addClassroom (db : Db) (name : String) (teacherId : Nat) : Db × Classroom :=
  let k : Classroom := ⟨db.nextId, name, teacherId⟩
  ({ db with classrooms := db.classrooms ++ [k], nextId := db.nextId + 1 }, k)

def addStudent (db : Db) (name : String) (classroomId : Option Nat) : Db × Student :=
  let st : Student := ⟨db.nextId, name, classroomId⟩
  ({ db with students := db.students ++ [st], nextId := db.nextId + 1 }, st)

def addGradeRow (db : Db) (studentId : Nat) (subject : String) (value : JsNumber) : Db × GradeRow :=
  let g : GradeRow := ⟨db.nextId, studentId, subject, value⟩
  ({ db with grades := db.grades ++ [g], nextId := db.nextId + 1 }, g)

/-- Upsert `prisma.user.upsert({ where: { phone }, update: {}, create: { phone, role: 'user' } })`. -/
def upsertUserByPhone (db : Db) (phone : String) : Db × User :=
  match findUserByPhone db phone with
  | some u => (db, u)
  | none => addUser db phone "user"

/-! ## Decimal rendering for template strings -/

def natReprAux : Nat → Nat → List Char → List Char
  | 0, _, acc => acc
  | fuel + 1, n, acc =>
    if n < 10 then Char.ofNat (48 + n) :: acc
    else natReprAux fuel (n / 10) (Char.ofNat (48 + n % 10) :: acc)

/-- Decimal rendering of a natural number (kernel-reducible). -/
def natRepr (n : Nat) : String := String.mk (natReprAux (n + 1) n [])

/-- JS `Array.prototype.join`. -/
def joinSep (sep : String) : List String → String
  | [] => ""
  | [x] => x
  | x :: rest => x ++ sep ++ joinSep sep rest

/-! ## The conversational response engine (`src/lib/cohere.ts`) -/

structure AIResponse where
  response : String
  needsEscalation : Bool
  escalationReason : String
deriving DecidableEq, Repr

/-- Outcome of the raced Cohere chat call: the reply text on success (the
code substitutes a default for a falsy `response.text`), the 10s timeout
rejection, or any other failure (including a failed write of the assistant
message, which the same `catch` absorbs). -/
inductive CohereOutcome where
  | ok (text : String)
  | timeout
  | failure
deriving DecidableEq, Repr

/-- The crisis branch of the escalation-reason test (lines 103-104). -/
def hasCrisisTerm (input : String) : Bool :=
  inclLower input "suicide" || inclLower input "kill myself" || inclLower input "self-harm" ||
  inclLower input "kujiua" || inclLower input "kujidhuru"

/-- The professional-request terms of the escalation test (the remaining
disjuncts of lines 89-99). -/
def hasProfessionalTerm (input : String) : Bool :=
  inclLower input "professional" || inclLower input "therapist" || inclLower input "counselor" ||
  inclLower input "help me professionally" || inclLower input "msaada wa kitaalamu" ||
  inclLower input "daktari wa akili"

/-- Test `needsEscalation` (lines 89-99): case-insensitive substring match of the
raw utterance against the crisis and professional-request lexicons. -/
def needsEscalationOf (input : String) : Bool :=
  inclLower input "suicide" || inclLower input "kill myself" || inclLower input "self-harm" ||
  inclLower input "professional" || inclLower input "therapist" || inclLower input "counselor" ||
  inclLower input "help me professionally" || inclLower input "kujiua" || inclLower input "kujidhuru" ||
  inclLower input "msaada wa kitaalamu" || inclLower input "daktari wa akili"

/-- Reason `escalationReason` (lines 101-109). -/
def escalationReasonOf (input : String) : String :=
  if needsEscalationOf input then
    (if hasCrisisTerm input then "crisis" else "requested_professional")
  else ""

/-- Function `getAIResponse` from `src/lib/cohere.ts`.  The user-message insert
happens before the raced call; the Swahili preamble selection and the chat
history only shape the prompt and are unobservable in the result. -/
def getAIResponse (db : Db) (input : String) (callId : Nat) (outcome : CohereOutcome) :
    AIResponse × Db :=
  match findCallById db callId with
  | none => (⟨"Sorry, there was an error.", false, ""⟩, db)
  | some call =>
    match call.conversationId.bind (findConvById db) with
    | none => (⟨"Sorry, there was an error.", false, ""⟩, db)
    | some conversation =>
      let db1 :=
        if (findMsg db conversation.id "user" input).isSome then db
        else (addMessage db conversation.id "user" input).1
      match outcome with
      | .timeout =>
        (⟨"I'm taking a bit longer to respond. Please hold on.", false, ""⟩, db1)
      | .failure =>
        (⟨"I'm sorry, I'm having trouble responding right now. Please try again.", false, ""⟩, db1)
      | .ok text =>
        let aiResponse := if text = "" then "I'm here to listen." else text
        let db2 := (addMessage db1 conversation.id "assistant" aiResponse).1
        (⟨aiResponse, needsEscalationOf input, escalationReasonOf input⟩, db2)

/-! ## The webhook handler (`src/app/api/twilio/webhook/route.ts`) -/

/-- The consumed Twilio form fields (`To` is only logged and omitted). -/
structure Event where
  speechResult : Option String
  callSid : String
  callerPhone : String
  callStatus : Option String
deriving DecidableEq, Repr

/-- Where a storage failure strikes, at the granularity of the route's
try/catch blocks: the outer handler try, the speech-branch try, the
swallowed user-message try, or the swallowed grade-parsing try. -/
inductive FailPoint where
  | outer
  | speech
  | msgSave
  | grade
deriving DecidableEq, Repr

structure Env where
  now : Nat
  cohere : CohereOutcome
  openai : OpenAIOutcome
  fail : Option FailPoint
deriving DecidableEq, Repr

inductive Verb where
  | say (text : String)
  | gather (inner : List String)
  | dial (number : String)
deriving DecidableEq, Repr

structure HttpResponse where
  status : Nat
  xml : Bool
  body : Option (List Verb)
deriving DecidableEq, Repr

def xmlResp (vs : List Verb) : HttpResponse := ⟨200, true, some vs⟩

/-- Response `new NextResponse('', { status: 200 })` for status updates. -/
def emptyResp : HttpResponse := ⟨200, false, none⟩

def greetingDoc : List Verb :=
  [.say "Hello! I'm your mental health support assistant. How are you feeling today?",
   .gather ["Please speak after the beep, and I'll listen."],
   .say "I didn't hear anything. Please try calling again."]

def teacherDoc (speakReply : String) : List Verb :=
  [.say speakReply,
   .gather ["Please speak the next entries after the beep."],
   .say "Thank you. Goodbye."]

def dialDoc (phone : String) : List Verb :=
  [.say "I understand you need professional help. I'm connecting you with a licensed counselor. Please hold while I transfer your call.",
   .dial phone,
   .say "The counselor is unavailable right now. Please call back later or contact emergency services if you're in immediate danger."]

def noCounselorDoc : List Verb :=
  [.say "I understand you need professional help. Our counselors are currently unavailable. Please contact the National Suicide Prevention Lifeline at 988, or visit emergency room if you're in immediate danger."]

def convoDoc (cleanResponse : String) : List Verb :=
  [.gather [cleanResponse, "What would you like to talk about next?"],
   .say "Thank you for calling. Take care of yourself."]

def dbErrorDoc : List Verb :=
  [.say "I'm sorry, I'm having trouble responding right now. Please try again.",
   .gather ["What would you like to talk about next?"],
   .say "Thank you for calling. Take care of yourself."]

def emptySpeechDoc : List Verb :=
  [.say "I didn't catch that. Could you please repeat?",
   .gather ["Please speak clearly after the beep."],
   .say "Thank you for calling. Take care."]

def technicalDoc : List Verb :=
  [.say "I'm sorry, I'm experiencing technical difficulties. Please try calling again later."]

def terminalStatuses : List String := ["completed", "busy", "no-answer", "failed", "canceled"]

/-- Check `callStatus && ['completed', ...].includes(callStatus)`. -/
def isTerminalEvent (ev : Event) : Bool :=
  match ev.callStatus with
  | some st => terminalStatuses.contains st
  | none => false

/-- Cleaning `aiResult.response.replace(/[<>&'"]/g, '').trim()`. -/
def stripMarkup (s : String) : String :=
  String.mk (trimL (s.toList.filter
    (fun c => !(c == '<' || c == '>' || c == '&' || c.toNat == 39 || c.toNat == 34))))

/-- Function `generateConversationSummary` from the webhook route. -/
def generateConversationSummary (db : Db) (callId : Nat) : String :=
  match (findCallById db callId).bind (fun call => call.conversationId.bind (findConvById db)) with
  | none => "No conversation history available."
  | some conv =>
    let msgs := db.messages.filter (fun m => m.conversationId == conv.id)
    let conversationText := joinSep "\n" (msgs.map (fun m => m.role ++ ": " ++ m.content))
    "Conversation summary: " ++ natRepr msgs.length ++ " messages exchanged. Key topics: " ++
      String.mk (conversationText.toList.take 200) ++ "..."

/-- The terminal-status branch (route lines 58-88). -/
def terminalStep (db : Db) (ev : Event) (env : Env) : Db × HttpResponse :=
  match findCallBySid db ev.callSid with
  | some existingCall =>
    if existingCall.status ≠ "completed" then
      let db1 := updateCall db existingCall.id
        (fun c => { c with status := "completed", endedAt := some env.now })
      let db2 :=
        match existingCall.assignedCounselorId with
        | some cid => updateUser db1 cid (fun u => { u with status := "available" })
        | none => db1
      (db2, emptyResp)
    else (db, emptyResp)
  | none => (db, emptyResp)

/-- The `in-progress` connect branch (route lines 91-112). -/
def connectStep (db : Db) (ev : Event) : Db :=
  match findCallBySid db ev.callSid with
  | some _ => db
  | none =>
    let r1 := upsertUserByPhone db ev.callerPhone
    let r2 := addConversation r1.1 r1.2.id
    (addCall r2.1 r1.2.id ev.callSid "ai_handling" (some r2.2.id)).1

/-- Find-or-create of call, caller and conversation inside the speech
branch (route lines 136-168); also returns the conversation object held by
the local `call` variable (`include: { conversation: true }`). -/
def ensureCall (db : Db) (ev : Event) : Db × Call × Option Nat :=
  match findCallBySid db ev.callSid with
  | some call => (db, call, (call.conversationId.bind (findConvById db)).map (fun c => c.id))
  | none =>
    let r1 := upsertUserByPhone db ev.callerPhone
    let r2 := addConversation r1.1 r1.2.id
    let r3 := addCall r2.1 r1.2.id ev.callSid "ai_handling" (some r2.2.id)
    (r3.1, r3.2, some r2.2.id)

/-- The swallowed user-message try block (route lines 171-198): attach a
conversation if the local call object has none, then insert the utterance
as a `user` message unless an identical one already exists. -/
def persistUserMsgBlock (db : Db) (call : Call) (convObj : Option Nat) (s : String)
    (env : Env) : Db × Call × Option Nat :=
  if env.fail == some .msgSave then (db, call, convObj)
  else
    match convObj with
    | none =>
      let r := addConversation db call.userId
      let dbA := updateCall r.1 call.id (fun c => { c with conversationId := some r.2.id })
      let call1 := { call with conversationId := some r.2.id }
      let dbB :=
        if (findMsg dbA r.2.id "user" s).isSome then dbA
        else (addMessage dbA r.2.id "user" s).1
      (dbB, call1, some r.2.id)
    | some cv =>
      let dbB :=
        if (findMsg db cv "user" s).isSome then db
        else (addMessage db cv "user" s).1
      (dbB, call, convObj)

/-- One iteration of the grade-persistence loop (route lines 226-239). -/
def saveEntryStep (classroomId : Option Nat) (acc : Db × Nat) (e : AIGradeEntry) : Db × Nat :=
  let studentName := String.mk (trimL e.studentName.toList)
  if studentName = "" then acc
  else
    let found := acc.1.students.find? (fun st =>
      st.name == studentName &&
        (match classroomId with
         | some cid => st.classroomId == some cid
         | none => true))
    let dbSt : Db × Student :=
      match found with
      | some st => (acc.1, st)
      | none => addStudent acc.1 studentName classroomId
    match e.grade with
    | some g => ((addGradeRow dbSt.1 dbSt.2.id (jsOr e.subject "General") g).1, acc.2 + 1)
    | none => (dbSt.1, acc.2)

/-- The fallback adaptation of the heuristic parse (route lines 208-212):
`missing` and `assistantReply` are not carried over. -/
def adaptedExtract (s : String) (env : Env) : AIExtractResult :=
  let parsed0 := extractGradesWithOpenAI s env.openai
  if parsed0.entries.isEmpty then
    let parsed := parseGrades s
    ⟨parsed.className,
     parsed.entries.map (fun e => ⟨e.studentName, e.subject, e.grade⟩), none, none⟩
  else parsed0

/-- The classroom find-or-create (route lines 216-223). -/
def classroomFor (db : Db) (caller : User) (parsedResult : AIExtractResult) : Db × Option Nat :=
  if jsTruthy parsedResult.className then
    let cn := parsedResult.className.getD ""
    match db.classrooms.find? (fun k => k.name == cn && k.teacherId == caller.id) with
    | some k => (db, some k.id)
    | none =>
      let r := addClassroom db cn caller.id
      (r.1, some r.2.id)
  else (db, none)

/-- The spoken confirmation text (route lines 242-247). -/
def confirmTextOf (savedCount : Nat) (parsedResult : AIExtractResult) : String :=
  "Saved " ++ natRepr savedCount ++ " grade(s)" ++
    (if jsTruthy parsedResult.className then
      " for class " ++ parsedResult.className.getD "" else "") ++ "." ++
    (match parsedResult.missing with
     | some ms => if ms.isEmpty then "" else
        " I noticed these students mentioned without grades: " ++ joinSep ", " ms ++ "."
     | none => "")

/-- The accepted-entries tail of the teacher branch (route lines 214-271):
persist classroom, students and grades, append the assistant confirmation,
and speak the extractor's reply or the built confirmation. -/
def teacherSuccess (db : Db) (call : Call) (convObj : Option Nat) (caller : User)
    (parsedResult : AIExtractResult) : Db × HttpResponse :=
  let dbCid := classroomFor db caller parsedResult
  let saved := parsedResult.entries.foldl (saveEntryStep dbCid.2) (dbCid.1, 0)
  let confirmText := confirmTextOf saved.2 parsedResult
  let db3 :=
    match convObj with
    | none =>
      let r := addConversation saved.1 call.userId
      let dbA := updateCall r.1 call.id (fun c => { c with conversationId := some r.2.id })
      (addMessage dbA r.2.id "assistant" confirmText).1
    | some cv => (addMessage saved.1 cv "assistant" confirmText).1
  let speakReply := jsOr parsedResult.assistantReply
    (confirmText ++ " Would you like to add more grades?")
  (db3, xmlResp (teacherDoc speakReply))

/-- The swallowed teacher/grade try block (route lines 200-276): returns
`none` to fall through to the conversational engine (non-teacher caller,
zero extracted entries, or a swallowed storage failure). -/
def teacherStep (db : Db) (call : Call) (convObj : Option Nat) (s : String) (env : Env) :
    Option (Db × HttpResponse) :=
  if env.fail == some .grade then none
  else
    match findUserById db call.userId with
    | none => none
    | some caller =>
      if caller.role ≠ "teacher" then none
      else
        if (adaptedExtract s env).entries.isEmpty then none
        else some (teacherSuccess db call convObj caller (adaptedExtract s env))

/-- The conversational tail of the speech branch (route lines 279-358):
`getAIResponse`, then either the escalation orchestration or the sanitized
conversational reply. -/
def conversationStep (db : Db) (call : Call) (s : String) (env : Env) : Db × HttpResponse :=
  let ai := getAIResponse db s call.id env.cohere
  let aiResult := ai.1
  let db1 := ai.2
  if aiResult.needsEscalation then
    let summary := generateConversationSummary db1 call.id
    match findAvailableCounselor db1 with
    | some counselor =>
      let db2 := (addEscalation db1 call.id counselor.id
        ("Reason: " ++ aiResult.escalationReason ++ "\nSummary: " ++ summary)).1
      let db3 := updateCall db2 call.id
        (fun c => { c with status := "counselor_assigned", assignedCounselorId := some counselor.id })
      let db4 := updateUser db3 counselor.id (fun u => { u with status := "busy" })
      (db4, xmlResp (dialDoc counselor.phone))
    | none => (db1, xmlResp noCounselorDoc)
  else
    let clean0 := stripMarkup aiResult.response
    let cleanResponse := if clean0 = "" then "I'm here to listen. How are you feeling?" else clean0
    (db1, xmlResp (convoDoc cleanResponse))

/-- The speech branch (route lines 132-376). -/
def speechStep (db : Db) (ev : Event) (s : String) (env : Env) : Db × HttpResponse :=
  if env.fail == some .speech then (db, xmlResp dbErrorDoc)
  else
    let r1 := ensureCall db ev
    let r2 := persistUserMsgBlock r1.1 r1.2.1 r1.2.2 s env
    match teacherStep r2.1 r2.2.1 r2.2.2 s env with
    | some r => r
    | none => conversationStep r2.1 r2.2.1 s env

/-- The non-terminal tail of the handler: greeting for a blank utterance,
speech processing for a non-blank one, the retry prompt otherwise. -/
def POSTtail (db0 : Db) (ev : Event) (env : Env) : Db × HttpResponse :=
  if speechFalsy ev.speechResult then (db0, xmlResp greetingDoc)
  else
    match ev.speechResult with
    | some s =>
      if String.mk (trimL s.toList) ≠ "" then speechStep db0 ev s env
      else (db0, xmlResp emptySpeechDoc)
    | none => (db0, xmlResp emptySpeechDoc)

/-- The webhook `POST` handler: one webhook event against the persisted
state, under an environment fixing the external services, the clock, and
any storage failure. -/
def POST (db : Db) (ev : Event) (env : Env) : Db × HttpResponse :=
  if env.fail == some .outer then (db, xmlResp technicalDoc)
  else if isTerminalEvent ev then terminalStep db ev env
  else
    POSTtail (if ev.callStatus == some "in-progress" then connectStep db ev else db) ev env

/-- A sequence of webhook deliveries (sequential semantics). -/
def runEvents (db : Db) (evs : List (Event × Env)) : Db :=
  evs.foldl (fun d pe => (POST d pe.1 pe.2).1) db

/-! ## Claim-level predicates -/

/-- A verb that can stand as the claim's "spoken line" (non-empty `Say`) or
"bridge-to-number directive" (`Dial`). -/
def validVerb : Verb → Bool
  | .say t => t != ""
  | .dial _ => true
  | .gather _ => false

/-- A voice-response document containing a non-empty spoken line or a
bridge directive (every route document also carries a listen-again
`Gather` or is terminal, which the document constants exhibit). -/
def validDocB (vs : List Verb) : Bool := vs.any validVerb

/-- The response invariant of claim C1: HTTP 200 always; an empty body only
for terminal status acknowledgments; otherwise a `text/xml` document with a
spoken line or bridge directive. -/
def responseOk (ev : Event) (r : HttpResponse) : Bool :=
  r.status == 200 &&
    (match r.body with
     | none => isTerminalEvent ev
     | some vs => r.xml && validDocB vs)

/-- Number of stored `user` messages with the given content in the given
conversation. -/
def countUserMsgs (db : Db) (cv : Nat) (s : String) : Nat :=
  (db.messages.filter
    (fun m => m.conversationId == cv && m.role == "user" && m.content == s)).length

/-- An open (not completed) call. -/
def isOpenCall (c : Call) : Bool := c.status != "completed"

/-- The specialist-exclusivity invariant of claim C3: a counselor assigned
to some open call is `busy`, and any two open calls assigned to the same
counselor are the same call. -/
def specialistExclusive (db : Db) : Prop :=
  ∀ u ∈ db.users, u.role = "counselor" →
    ((∃ c ∈ db.calls, isOpenCall c = true ∧ c.assignedCounselorId = some u.id) →
      u.status = "busy") ∧
    (∀ c1 ∈ db.calls, ∀ c2 ∈ db.calls,
      isOpenCall c1 = true → isOpenCall c2 = true →
      c1.assignedCounselorId = some u.id → c2.assignedCounselorId = some u.id →
      c1.id = c2.id)

/-- The user fields the exclusivity invariant reads. -/
def usersProj (db : Db) : List (Nat × String × String) :=
  db.users.map (fun u => (u.id, u.role, u.status))

/-- The call fields the exclusivity invariant reads. -/
def callsProj (db : Db) : List (Nat × String × Option Nat) :=
  db.calls.map (fun c => (c.id, c.status, c.assignedCounselorId))

/-- Call ids are below the id counter (holds for any state built by the
model's creates; needed so a freshly created call cannot shadow an id). -/
def callIdsFresh (db : Db) : Bool :=
  db.calls.all (fun c => c.id < db.nextId)

/-! ## Concrete fixtures for witnesses and counterexamples -/

/-- A benign environment: no storage failure, Cohere replies, OpenAI yields
no content. -/
def envBenign : Env := ⟨100, .ok "I hear you.", .ok none, none⟩

/-- An end-user caller, an available counselor, one open call with its
conversation. -/
def dbOpenCall : Db :=
  ⟨[⟨0, "+1555", "user", "available"⟩, ⟨1, "+1999", "counselor", "available"⟩],
   [⟨2, "CA1", 0, "ai_handling", none, some 3, none⟩], [⟨3, 0⟩], [], [], [], [], [], 4⟩

/-- Same shape, but the call is already completed (for the C4 regression
counterexample). -/
def dbCompletedCall : Db :=
  ⟨[⟨0, "+1555", "user", "available"⟩, ⟨1, "+1999", "counselor", "available"⟩],
   [⟨2, "CA1", 0, "completed", none, some 3, some 50⟩], [⟨3, 0⟩], [], [], [], [], [], 4⟩

/-- One available counselor and two open calls with conversations (for the
C3 exclusivity scenario). -/
def dbTwoCalls : Db :=
  ⟨[⟨0, "+1555", "user", "available"⟩, ⟨1, "+1666", "user", "available"⟩,
    ⟨2, "+1999", "counselor", "available"⟩],
   [⟨3, "CA1", 0, "ai_handling", none, some 5, none⟩,
    ⟨4, "CA2", 1, "ai_handling", none, some 6, none⟩],
   [⟨5, 0⟩, ⟨6, 1⟩], [], [], [], [], [], 7⟩

/-- A teacher caller with an open call and conversation (for C8 and C10). -/
def dbTeacherCall : Db :=
  ⟨[⟨0, "+1777", "teacher", "available"⟩],
   [⟨1, "CA9", 0, "ai_handling", none, some 2, none⟩], [⟨2, 0⟩], [], [], [], [], [], 3⟩

/-- An open call whose conversation is empty (for the C6 counterexample). -/
def dbEmptyConv : Db :=
  ⟨[⟨0, "+1555", "user", "available"⟩],
   [⟨1, "CA5", 0, "ai_handling", none, some 2, none⟩], [⟨2, 0⟩], [], [], [], [], [], 3⟩

/-- An OpenAI reply whose `assistantReply` contains markup characters (for
C10); braces are escaped as \x7b and \x7d. -/
def rawWithMarkup : String :=
  "\x7b\"entries\":[\x7b\"studentName\":\"Bob\",\"subject\":\"Math\",\"grade\":90\x7d],\"assistantReply\":\"Saved <b>ok</b>\"\x7d"

/-- A call already assigned to the counselor (for the C2 witness). -/
def dbAssignedCall : Db :=
  ⟨[⟨0, "+1555", "user", "available"⟩, ⟨1, "+1999", "counselor", "busy"⟩],
   [⟨2, "CA1", 0, "counselor_assigned", some 1, some 3, none⟩], [⟨3, 0⟩], [], [], [], [], [], 4⟩

def evCrisis1 : Event := ⟨some "I want to kill myself", "CA1", "+1555", none⟩
def evCrisis2 : Event := ⟨some "I want to kill myself", "CA2", "+1666", none⟩
def evTermCA1 : Event := ⟨none, "CA1", "+1555", some "completed"⟩
def evHello : Event := ⟨some "hello there", "CA1", "+1555", none⟩
def evTeachDictation : Event := ⟨some "Alice: Math 92, Biology 88", "CA9", "+1777", none⟩
def evTeachMarkup : Event := ⟨some "record grades now", "CA9", "+1777", none⟩

/-- Cohere times out; no storage failure. -/
def envTimeout : Env := ⟨100, .timeout, .ok none, none⟩

/-- OpenAI returns the markup-carrying reply. -/
def envMarkup : Env := ⟨100, .ok "I hear you.", .ok (some rawWithMarkup), none⟩

/-- The composite invariant for the C4 stability argument: call ids are
below the id counter, the tracked id is too, and every call row carrying
the tracked id is completed. -/
def compInv (cid : Nat) (db : Db) : Prop :=
  (∀ x ∈ db.calls, x.id < db.nextId) ∧ cid < db.nextId ∧
  (∀ x ∈ db.calls, x.id = cid → x.status = "completed")

theorem responseOk_xmlResp (ev : Event) (vs : List Verb) (h : validDocB vs = true) :
    responseOk ev (xmlResp vs) = true := by
  simp [responseOk, xmlResp, h]

theorem validDocB_teacherDoc (sp : String) : validDocB (teacherDoc sp) = true := by
  have h : (("Thank you. Goodbye." : String) != "") = true := rfl
  simp [validDocB, teacherDoc, validVerb, h]

theorem validDocB_convoDoc (s : String) : validDocB (convoDoc s) = true := by
  have h : (("Thank you for calling. Take care of yourself." : String) != "") = true := rfl
  simp [validDocB, convoDoc, validVerb, h]

theorem validDocB_dialDoc (p : String) : validDocB (dialDoc p) = true := by
  simp [validDocB, dialDoc, validVerb]

theorem conversationStep_ok (ev : Event) (db : Db) (call : Call) (s : String) (env : Env) :
    responseOk ev (conversationStep db call s env).2 = true := by
  simp only [conversationStep]
  split
  · split
    · exact responseOk_xmlResp _ _ (validDocB_dialDoc _)
    · exact responseOk_xmlResp _ _ (by decide)
  · exact responseOk_xmlResp _ _ (validDocB_convoDoc _)

theorem teacherSuccess_resp (db : Db) (call : Call) (convObj : Option Nat) (caller : User)
    (pr : AIExtractResult) :
    ∃ sp, (teacherSuccess db call convObj caller pr).2 = xmlResp (teacherDoc sp) :=
  ⟨_, rfl⟩

theorem teacherStep_ok (ev : Event) (db : Db) (call : Call) (convObj : Option Nat)
    (s : String) (env : Env) (p : Db × HttpResponse)
    (h : teacherStep db call convObj s env = some p) :
    responseOk ev p.2 = true := by
  unfold teacherStep at h
  split at h
  · exact absurd h (by simp)
  · split at h
    · exact absurd h (by simp)
    · split at h
      · exact absurd h (by simp)
      · split at h
        · exact absurd h (by simp)
        · simp only [Option.some.injEq] at h
          subst h
          obtain ⟨sp, hsp⟩ := teacherSuccess_resp db call convObj _ (adaptedExtract s env)
          rw [hsp]
          exact responseOk_xmlResp _ _ (validDocB_teacherDoc _)

theorem speechStep_ok (ev : Event) (db : Db) (s : String) (env : Env) :
    responseOk ev (speechStep db ev s env).2 = true := by
  simp only [speechStep]
  split
  · exact responseOk_xmlResp _ _ (by decide)
  · split
    · next p h => exact teacherStep_ok ev _ _ _ _ _ p h
    · exact conversationStep_ok ev _ _ _ _

/-- Claim C1: every webhook event, under every service outcome and storage
failure, yields HTTP 200; the body is empty only on a terminal
status-update acknowledgment, and otherwise is a text/xml voice-response
document containing a non-empty spoken line or a bridge directive. -/
theorem webhook_response_always_valid (db : Db) (ev : Event) (env : Env) :
    responseOk ev (POST db ev env).2 = true := by
  simp only [POST, POSTtail]
  split
  · exact responseOk_xmlResp _ _ (by decide)
  · split
    · next hterm =>
      simp only [terminalStep]
      split
      · split
        · simp [responseOk, emptyResp, hterm]
        · simp [responseOk, emptyResp, hterm]
      · simp [responseOk, emptyResp, hterm]
    · split
      · exact responseOk_xmlResp _ _ (by decide)
      · split
        · split
          · exact speechStep_ok _ _ _ _
          · exact responseOk_xmlResp _ _ (by decide)
        · exact responseOk_xmlResp _ _ (by decide)

theorem find?_map_invariant {α : Type} (g : α → α) (p : α → Bool)
    (hp : ∀ x, p (g x) = p x) (l : List α) :
    (l.map g).find? p = (l.find? p).map g := by
  induction l with
  | nil => rfl
  | cons a t ih =>
    cases hpa : p a
    · have hga : p (g a) = false := by rw [hp a, hpa]
      simp [List.find?_cons_of_neg, hpa, hga, ih]
    · have hga : p (g a) = true := by rw [hp a, hpa]
      simp [List.find?_cons_of_pos, hpa, hga]

theorem findCallBySid_updateCall (db : Db) (cid : Nat) (f : Call → Call)
    (hf : ∀ c, (f c).twilioCallSid = c.twilioCallSid) (sid : String) :
    findCallBySid (updateCall db cid f) sid =
      (findCallBySid db sid).map (fun c => if c.id == cid then f c else c) := by
  unfold findCallBySid updateCall
  exact find?_map_invariant _ _ (fun c => by by_cases h : c.id == cid <;> simp [h, hf]) _

theorem findCallBySid_updateUser (db : Db) (uid : Nat) (f : User → User) (sid : String) :
    findCallBySid (updateUser db uid f) sid = findCallBySid db sid := rfl

/-- Claim C2: a terminal-status event on an existing not-yet-completed Call
marks it completed, stamps the end time, releases any assigned counselor
back to available, and returns an empty body; a second delivery of the
same event is a state-preserving no-op with the same empty response. -/
theorem terminal_event_completes_idempotently
    (db : Db) (ev : Event) (env env2 : Env) (c : Call)
    (hfail : env.fail = none) (hfail2 : env2.fail = none)
    (hterm : isTerminalEvent ev = true)
    (hfind : findCallBySid db ev.callSid = some c)
    (hnc : c.status ≠ "completed") :
    (findCallBySid (POST db ev env).1 ev.callSid =
       some { c with status := "completed", endedAt := some env.now }) ∧
    (∀ cid, c.assignedCounselorId = some cid →
       ∀ u ∈ (POST db ev env).1.users, u.id = cid → u.status = "available") ∧
    (POST db ev env).2 = emptyResp ∧
    POST (POST db ev env).1 ev env2 = ((POST db ev env).1, emptyResp) := by
  have hsidF : ∀ x : Call,
      ({ x with status := "completed", endedAt := some env.now } : Call).twilioCallSid
        = x.twilioCallSid := fun _ => rfl
  cases hca : c.assignedCounselorId with
  | none =>
    have hout : POST db ev env =
        (updateCall db c.id (fun x => { x with status := "completed", endedAt := some env.now }),
         emptyResp) := by
      simp [POST, hfail, hterm, terminalStep, hfind, hnc, hca]
    have hfind2 : findCallBySid (POST db ev env).1 ev.callSid =
        some { c with status := "completed", endedAt := some env.now } := by
      rw [hout]
      rw [findCallBySid_updateCall db c.id _ hsidF ev.callSid, hfind]
      simp
    rw [hca] at hfind2
    refine ⟨hfind2, ?_, by rw [hout], ?_⟩
    · intro cid hcid
      exact absurd hcid (by simp)
    · have hterm2 : terminalStep (POST db ev env).1 ev env2 = ((POST db ev env).1, emptyResp) := by
        simp [terminalStep, hfind2]
      set X := (POST db ev env).1 with hX
      simp [POST, hfail2, hterm, hterm2]
  | some cid =>
    have hout : POST db ev env =
        (updateUser
          (updateCall db c.id (fun x => { x with status := "completed", endedAt := some env.now }))
          cid (fun u => { u with status := "available" }),
         emptyResp) := by
      simp [POST, hfail, hterm, terminalStep, hfind, hnc, hca]
    have hfind2 : findCallBySid (POST db ev env).1 ev.callSid =
        some { c with status := "completed", endedAt := some env.now } := by
      rw [hout]
      rw [findCallBySid_updateUser, findCallBySid_updateCall db c.id _ hsidF ev.callSid, hfind]
      simp
    rw [hca] at hfind2
    refine ⟨hfind2, ?_, by rw [hout], ?_⟩
    · intro cid0 hcid0 u hu hid
      obtain rfl : cid = cid0 := by injection hcid0
      rw [hout] at hu
      simp only [updateUser, updateCall] at hu
      obtain ⟨u0, hu0, rfl⟩ := List.mem_map.1 hu
      by_cases h : u0.id == cid
      · simp [h]
      · simp only [if_neg h] at hid ⊢
        rw [show u0.id = cid from hid] at h
        exact absurd (by simp) h
    · have hterm2 : terminalStep (POST db ev env).1 ev env2 = ((POST db ev env).1, emptyResp) := by
        simp [terminalStep, hfind2]
      set X := (POST db ev env).1 with hX
      simp [POST, hfail2, hterm, hterm2]

theorem exclusive_congr (db db2 : Db)
    (hu : usersProj db2 = usersProj db) (hc : callsProj db2 = callsProj db)
    (hinv : specialistExclusive db) : specialistExclusive db2 := by
  intro u2 hu2 hrole
  have hmem : (u2.id, u2.role, u2.status) ∈ usersProj db := by
    rw [← hu]; exact List.mem_map.2 ⟨u2, hu2, rfl⟩
  obtain ⟨u, hu0, hproj⟩ := List.mem_map.1 hmem
  obtain ⟨hid, hrole0, hstat⟩ : u.id = u2.id ∧ u.role = u2.role ∧ u.status = u2.status := by
    simpa using hproj
  have transferCall : ∀ c2 ∈ db2.calls, ∃ c ∈ db.calls,
      c.id = c2.id ∧ c.status = c2.status ∧ c.assignedCounselorId = c2.assignedCounselorId := by
    intro c2 hc2
    have : (c2.id, c2.status, c2.assignedCounselorId) ∈ callsProj db := by
      rw [← hc]; exact List.mem_map.2 ⟨c2, hc2, rfl⟩
    obtain ⟨c, hcm, hcp⟩ := List.mem_map.1 this
    exact ⟨c, hcm, by simpa using hcp⟩
  obtain ⟨hbusy, hexcl⟩ := hinv u hu0 (hrole0.trans hrole)
  constructor
  · rintro ⟨c2, hc2, hopen, hass⟩
    obtain ⟨c, hcm, hcid, hcst, hca⟩ := transferCall c2 hc2
    rw [← hstat]
    exact hbusy ⟨c, hcm, by simpa [isOpenCall, hcst] using hopen, by rw [hca, hass, hid]⟩
  · intro c1 hc1 c2 hc2 ho1 ho2 ha1 ha2
    obtain ⟨d1, hd1, hd1id, hd1st, hd1a⟩ := transferCall c1 hc1
    obtain ⟨d2, hd2, hd2id, hd2st, hd2a⟩ := transferCall c2 hc2
    have := hexcl d1 hd1 d2 hd2 (by simpa [isOpenCall, hd1st] using ho1)
      (by simpa [isOpenCall, hd2st] using ho2) (by rw [hd1a, ha1, hid]) (by rw [hd2a, ha2, hid])
    rw [← hd1id, ← hd2id]; exact this

theorem usersProj_addConversation (db : Db) (uid : Nat) :
    usersProj (addConversation db uid).1 = usersProj db := rfl
theorem callsProj_addConversation (db : Db) (uid : Nat) :
    callsProj (addConversation db uid).1 = callsProj db := rfl
theorem usersProj_addMessage (db : Db) (cv : Nat) (r c : String) :
    usersProj (addMessage db cv r c).1 = usersProj db := rfl
theorem callsProj_addMessage (db : Db) (cv : Nat) (r c : String) :
    callsProj (addMessage db cv r c).1 = callsProj db := rfl
theorem usersProj_addEscalation (db : Db) (a b : Nat) (n : String) :
    usersProj (addEscalation db a b n).1 = usersProj db := rfl
theorem callsProj_addEscalation (db : Db) (a b : Nat) (n : String) :
    callsProj (addEscalation db a b n).1 = callsProj db := rfl

theorem callsProj_updateCall_keep (db : Db) (cid : Nat) (f : Call → Call)
    (hf : ∀ c, (f c).id = c.id ∧ (f c).status = c.status ∧
      (f c).assignedCounselorId = c.assignedCounselorId) :
    callsProj (updateCall db cid f) = callsProj db := by
  simp only [callsProj, updateCall, List.map_map]
  apply List.map_congr_left
  intro c _
  by_cases h : c.id = cid <;> simp [h, hf]

theorem usersProj_updateCall (db : Db) (cid : Nat) (f : Call → Call) :
    usersProj (updateCall db cid f) = usersProj db := rfl

theorem exclusive_addUserRole (db : Db) (phone : String) (hinv : specialistExclusive db) :
    specialistExclusive (addUser db phone "user").1 := by
  intro u hu hrole
  simp only [addUser, List.mem_append, List.mem_singleton] at hu
  cases hu with
  | inl h => exact hinv u h hrole
  | inr h =>
    subst h
    have hfalse : ("user" : String) = "counselor" := hrole
    exact absurd hfalse (by decide)

theorem exclusive_addCallUnassigned (db : Db) (uid : Nat) (sid st : String) (cv : Option Nat)
    (hinv : specialistExclusive db) :
    specialistExclusive (addCall db uid sid st cv).1 := by
  intro u hu hrole
  have hu0 : u ∈ db.users := hu
  obtain ⟨hbusy, hexcl⟩ := hinv u hu0 hrole
  have hcalls : (addCall db uid sid st cv).1.calls = db.calls ++ [⟨db.nextId, sid, uid, st, none, cv, none⟩] := rfl
  constructor
  · rintro ⟨c, hc, hopen, hass⟩
    rw [hcalls] at hc
    rcases List.mem_append.1 hc with h | h
    · exact hbusy ⟨c, h, hopen, hass⟩
    · rw [List.mem_singleton] at h
      subst h
      exact absurd hass (by simp)
  · intro c1 hc1 c2 hc2 ho1 ho2 ha1 ha2
    rw [hcalls] at hc1 hc2
    rcases List.mem_append.1 hc1 with h1 | h1
    · rcases List.mem_append.1 hc2 with h2 | h2
      · exact hexcl c1 h1 c2 h2 ho1 ho2 ha1 ha2
      · rw [List.mem_singleton] at h2; subst h2; exact absurd ha2 (by simp)
    · rw [List.mem_singleton] at h1; subst h1; exact absurd ha1 (by simp)

theorem exclusive_completeCall (db : Db) (cid0 : Nat) (t : Nat)
    (hinv : specialistExclusive db) :
    specialistExclusive (updateCall db cid0
      (fun x => { x with status := "completed", endedAt := some t })) := by
  intro u hu hrole
  have hu0 : u ∈ db.users := hu
  obtain ⟨hbusy, hexcl⟩ := hinv u hu0 hrole
  constructor
  · rintro ⟨c2, hc2, hopen, hass⟩
    simp only [updateCall] at hc2
    obtain ⟨x, hx, rfl⟩ := List.mem_map.1 hc2
    by_cases h : x.id == cid0
    · rw [if_pos h] at hopen
      simp [isOpenCall] at hopen
    · rw [if_neg h] at hopen hass
      exact hbusy ⟨x, hx, hopen, hass⟩
  · intro c1 hc1 c2 hc2 ho1 ho2 ha1 ha2
    simp only [updateCall] at hc1 hc2
    obtain ⟨x1, hx1, rfl⟩ := List.mem_map.1 hc1
    obtain ⟨x2, hx2, rfl⟩ := List.mem_map.1 hc2
    by_cases h1 : x1.id == cid0
    · rw [if_pos h1] at ho1
      simp [isOpenCall] at ho1
    · by_cases h2 : x2.id == cid0
      · rw [if_pos h2] at ho2
        simp [isOpenCall] at ho2
      · rw [if_neg h1] at ho1 ha1 ⊢
        rw [if_neg h2] at ho2 ha2 ⊢
        exact hexcl x1 hx1 x2 hx2 ho1 ho2 ha1 ha2

theorem exclusive_setAvailable (db2 : Db) (cid : Nat)
    (hno : (∃ w ∈ db2.users, w.id = cid ∧ w.role = "counselor") →
      ∀ c ∈ db2.calls, isOpenCall c = true → c.assignedCounselorId ≠ some cid)
    (hinv : specialistExclusive db2) :
    specialistExclusive (updateUser db2 cid (fun u => { u with status := "available" })) := by
  intro u hu hrole
  simp only [updateUser] at hu
  obtain ⟨u0, hu0, rfl⟩ := List.mem_map.1 hu
  have hcalls : (updateUser db2 cid (fun u => { u with status := "available" })).calls
      = db2.calls := rfl
  by_cases h : u0.id == cid
  · rw [if_pos h] at hrole ⊢
    have hidc : u0.id = cid := by simpa using h
    have hw : ∃ w ∈ db2.users, w.id = cid ∧ w.role = "counselor" :=
      ⟨u0, hu0, hidc, hrole⟩
    constructor
    · rintro ⟨c, hc, hopen, hass⟩
      rw [hcalls] at hc
      exact absurd (hass.trans (by rw [hidc])) (hno hw c hc hopen)
    · intro c1 hc1 c2 hc2 ho1 ho2 ha1 ha2
      rw [hcalls] at hc1
      exact absurd (ha1.trans (by rw [hidc])) (hno hw c1 hc1 ho1)
  · rw [if_neg h] at hrole ⊢
    obtain ⟨hbusy, hexcl⟩ := hinv u0 hu0 hrole
    exact ⟨fun he => hbusy he, hexcl⟩

theorem exclusive_escalate (db : Db) (callId : Nat) (u0 : User)
    (hfindC : findAvailableCounselor db = some u0)
    (hinv : specialistExclusive db) :
    specialistExclusive
      (updateUser
        (updateCall db callId
          (fun c => { c with status := "counselor_assigned", assignedCounselorId := some u0.id }))
        u0.id (fun u => { u with status := "busy" })) := by
  have hfindC2 : db.users.find? (fun u => u.role == "counselor" && u.status == "available")
      = some u0 := hfindC
  have hmem0 : u0 ∈ db.users := List.mem_of_find?_eq_some hfindC2
  have hp0 : (u0.role == "counselor" && u0.status == "available") = true := by
    have := List.find?_some (p := fun u : User => u.role == "counselor" && u.status == "available")
      (a := u0) (l := db.users) hfindC2
    simpa using this
  have hsplit : (u0.role == "counselor") = true ∧ (u0.status == "available") = true := by
    simpa [Bool.and_eq_true] using hp0
  have hrole0 : u0.role = "counselor" := by simpa using hsplit.1
  have hstat0 : u0.status = "available" := by simpa using hsplit.2
  have hnoopen : ∀ c ∈ db.calls, isOpenCall c = true → c.assignedCounselorId ≠ some u0.id := by
    intro c hc hopen hass
    have hb := (hinv u0 hmem0 hrole0).1 ⟨c, hc, hopen, hass⟩
    rw [hstat0] at hb
    exact absurd hb (by decide)
  intro u hu hrole
  simp only [updateUser, updateCall] at hu
  obtain ⟨u1, hu1, rfl⟩ := List.mem_map.1 hu
  have huid : (if u1.id == u0.id then ({ u1 with status := "busy" } : User) else u1).id = u1.id := by
    by_cases h : u1.id == u0.id <;> simp [h]
  have hurole : (if u1.id == u0.id then ({ u1 with status := "busy" } : User) else u1).role
      = u1.role := by
    by_cases h : u1.id == u0.id <;> simp [h]
  constructor
  · rintro ⟨c2, hc2, hopen, hass⟩
    simp only [updateUser, updateCall] at hc2
    obtain ⟨x, hx, rfl⟩ := List.mem_map.1 hc2
    rw [huid] at hass
    by_cases h : u1.id == u0.id
    · rw [if_pos h]
    · rw [if_neg h]
      by_cases hxc : x.id == callId
      · rw [if_pos hxc] at hass
        have heq : u0.id = u1.id := by simpa using hass
        exact absurd heq.symm (by simpa using h)
      · rw [if_neg hxc] at hopen hass
        have hrole1 : u1.role = "counselor" := by rw [← hurole]; exact hrole
        exact (hinv u1 hu1 hrole1).1 ⟨x, hx, hopen, hass⟩
  · intro c1 hc1 c2 hc2 ho1 ho2 ha1 ha2
    simp only [updateUser, updateCall] at hc1 hc2
    obtain ⟨x1, hx1, rfl⟩ := List.mem_map.1 hc1
    obtain ⟨x2, hx2, rfl⟩ := List.mem_map.1 hc2
    rw [huid] at ha1 ha2
    by_cases h1 : x1.id == callId
    · by_cases h2 : x2.id == callId
      · rw [if_pos h1, if_pos h2]
        simp only
        rw [show x1.id = callId from by simpa using h1, show x2.id = callId from by simpa using h2]
      · rw [if_pos h1] at ha1
        rw [if_neg h2] at ho2 ha2
        have hq : u0.id = u1.id := by simpa using ha1
        rw [← hq] at ha2
        exact absurd ha2 (hnoopen x2 hx2 ho2)
    · by_cases h2 : x2.id == callId
      · rw [if_pos h2] at ha2
        rw [if_neg h1] at ho1 ha1
        have hq : u0.id = u1.id := by simpa using ha2
        rw [← hq] at ha1
        exact absurd ha1 (hnoopen x1 hx1 ho1)
      · rw [if_neg h1] at ho1 ha1 ⊢
        rw [if_neg h2] at ho2 ha2 ⊢
        by_cases hq : u1.id = u0.id
        · rw [hq] at ha1
          exact absurd ha1 (hnoopen x1 hx1 ho1)
        · have hrole1 : u1.role = "counselor" := by rw [← hurole]; exact hrole
          exact (hinv u1 hu1 hrole1).2 x1 hx1 x2 hx2 ho1 ho2 ha1 ha2

theorem getAIResponse_state (db : Db) (i : String) (cid : Nat) (o : CohereOutcome) :
    (getAIResponse db i cid o).2.users = db.users ∧
    (getAIResponse db i cid o).2.calls = db.calls ∧
    (getAIResponse db i cid o).2.conversations = db.conversations := by
  unfold getAIResponse
  split
  · exact ⟨rfl, rfl, rfl⟩
  · split
    · exact ⟨rfl, rfl, rfl⟩
    · cases o with
      | ok t => split <;> exact ⟨rfl, rfl, rfl⟩
      | timeout => split <;> exact ⟨rfl, rfl, rfl⟩
      | failure => split <;> exact ⟨rfl, rfl, rfl⟩

theorem exclusive_terminalStep (db : Db) (ev : Event) (env : Env)
    (hinv : specialistExclusive db) : specialistExclusive (terminalStep db ev env).1 := by
  unfold terminalStep
  split
  · next c hfind =>
    split
    · next hnc =>
      have hcm : c ∈ db.calls := List.mem_of_find?_eq_some hfind
      have hopenc : isOpenCall c = true := by simp [isOpenCall, hnc]
      cases hca : c.assignedCounselorId with
      | none => exact exclusive_completeCall db c.id env.now hinv
      | some cid =>
        apply exclusive_setAvailable
        · rintro ⟨w, hw, hwid, hwrole⟩ c2 hc2 hopen2 hass2
          simp only [updateCall] at hc2
          obtain ⟨x, hx, rfl⟩ := List.mem_map.1 hc2
          by_cases h : x.id == c.id
          · rw [if_pos h] at hopen2
            simp [isOpenCall] at hopen2
          · rw [if_neg h] at hopen2 hass2
            have hwmem : w ∈ db.users := hw
            have heq := (hinv w hwmem hwrole).2 c hcm x hx hopenc hopen2
              (by rw [hca, hwid]) (by rw [hass2, hwid])
            exact absurd (by simpa using heq.symm) h
        · exact exclusive_completeCall db c.id env.now hinv
    · exact hinv
  · exact hinv

theorem exclusive_upsert (db : Db) (phone : String) (hinv : specialistExclusive db) :
    specialistExclusive (upsertUserByPhone db phone).1 := by
  unfold upsertUserByPhone
  split
  · exact hinv
  · exact exclusive_addUserRole db phone hinv

theorem exclusive_connectStep (db : Db) (ev : Event) (hinv : specialistExclusive db) :
    specialistExclusive (connectStep db ev) := by
  unfold connectStep
  split
  · exact hinv
  · exact exclusive_addCallUnassigned _ _ _ _ _
      (exclusive_congr _ _ rfl rfl (exclusive_upsert db ev.callerPhone hinv))

theorem exclusive_ensureCall (db : Db) (ev : Event) (hinv : specialistExclusive db) :
    specialistExclusive (ensureCall db ev).1 := by
  unfold ensureCall
  split
  · exact hinv
  · exact exclusive_addCallUnassigned _ _ _ _ _
      (exclusive_congr _ _ rfl rfl (exclusive_upsert db ev.callerPhone hinv))

theorem exclusive_persistBlock (db : Db) (call : Call) (convObj : Option Nat) (s : String)
    (env : Env) (hinv : specialistExclusive db) :
    specialistExclusive (persistUserMsgBlock db call convObj s env).1 := by
  have hattach : specialistExclusive
      (updateCall (addConversation db call.userId).1 call.id
        (fun c => { c with conversationId := some (addConversation db call.userId).2.id })) :=
    exclusive_congr db _ rfl
      (callsProj_updateCall_keep _ _ _ (fun c => ⟨rfl, rfl, rfl⟩)) hinv
  simp only [persistUserMsgBlock]
  split
  · exact hinv
  · split
    · split
      · exact hattach
      · exact exclusive_congr _ _ rfl rfl hattach
    · split
      · exact hinv
      · exact exclusive_congr _ _ rfl rfl hinv

theorem saveEntries_state (cid : Option Nat) (l : List AIGradeEntry) (acc : Db × Nat) :
    (l.foldl (saveEntryStep cid) acc).1.users = acc.1.users ∧
    (l.foldl (saveEntryStep cid) acc).1.calls = acc.1.calls := by
  induction l generalizing acc with
  | nil => exact ⟨rfl, rfl⟩
  | cons e t ih =>
    have hstep : (saveEntryStep cid acc e).1.users = acc.1.users ∧
        (saveEntryStep cid acc e).1.calls = acc.1.calls := by
      simp only [saveEntryStep]
      split
      · exact ⟨rfl, rfl⟩
      · split <;> split <;> exact ⟨rfl, rfl⟩
    rw [List.foldl_cons]
    obtain ⟨h1, h2⟩ := ih (saveEntryStep cid acc e)
    exact ⟨h1.trans hstep.1, h2.trans hstep.2⟩

theorem classroomFor_state (db : Db) (caller : User) (pr : AIExtractResult) :
    (classroomFor db caller pr).1.users = db.users ∧
    (classroomFor db caller pr).1.calls = db.calls := by
  simp only [classroomFor]
  split
  · split <;> exact ⟨rfl, rfl⟩
  · exact ⟨rfl, rfl⟩

theorem teacherSuccess_projections (db : Db) (call : Call) (convObj : Option Nat)
    (caller : User) (pr : AIExtractResult) :
    usersProj (teacherSuccess db call convObj caller pr).1 = usersProj db ∧
    callsProj (teacherSuccess db call convObj caller pr).1 = callsProj db := by
  obtain ⟨hcu, hcc⟩ := classroomFor_state db caller pr
  obtain ⟨hsu, hsc⟩ := saveEntries_state (classroomFor db caller pr).2 pr.entries
    ((classroomFor db caller pr).1, 0)
  constructor
  · simp only [teacherSuccess]
    cases convObj with
    | none =>
      show usersProj (addMessage _ _ _ _).1 = usersProj db
      rw [usersProj_addMessage, usersProj_updateCall, usersProj_addConversation]
      simp [usersProj, hsu, hcu]
    | some cv =>
      show usersProj (addMessage _ _ _ _).1 = usersProj db
      rw [usersProj_addMessage]
      simp [usersProj, hsu, hcu]
  · simp only [teacherSuccess]
    cases convObj with
    | none =>
      show callsProj (addMessage _ _ _ _).1 = callsProj db
      rw [callsProj_addMessage]
      refine (callsProj_updateCall_keep _ _ _ ?_).trans ?_
      · intro c
        exact ⟨rfl, rfl, rfl⟩
      · rw [callsProj_addConversation]
        simp [callsProj, hsc, hcc]
    | some cv =>
      show callsProj (addMessage _ _ _ _).1 = callsProj db
      rw [callsProj_addMessage]
      simp [callsProj, hsc, hcc]

theorem exclusive_teacherStep (db : Db) (call : Call) (convObj : Option Nat) (s : String)
    (env : Env) (p : Db × HttpResponse)
    (hp : teacherStep db call convObj s env = some p)
    (hinv : specialistExclusive db) : specialistExclusive p.1 := by
  unfold teacherStep at hp
  split at hp
  · exact absurd hp (by simp)
  · split at hp
    · exact absurd hp (by simp)
    · split at hp
      · exact absurd hp (by simp)
      · split at hp
        · exact absurd hp (by simp)
        · simp only [Option.some.injEq] at hp
          subst hp
          obtain ⟨hu, hc⟩ := teacherSuccess_projections db call convObj _ (adaptedExtract s env)
          exact exclusive_congr _ _ hu hc hinv

theorem exclusive_conversationStep (db : Db) (call : Call) (s : String) (env : Env)
    (hinv : specialistExclusive db) :
    specialistExclusive (conversationStep db call s env).1 := by
  obtain ⟨hu, hc, _⟩ := getAIResponse_state db s call.id env.cohere
  have hinv1 : specialistExclusive (getAIResponse db s call.id env.cohere).2 := by
    apply exclusive_congr _ _ ?_ ?_ hinv
    · simp [usersProj, hu]
    · simp [callsProj, hc]
  simp only [conversationStep]
  split
  · split
    · next counselor hfound =>
      exact exclusive_escalate _ _ _ hfound (exclusive_congr _ _ rfl rfl hinv1)
    · exact hinv1
  · exact hinv1

theorem exclusive_speechStep (db : Db) (ev : Event) (s : String) (env : Env)
    (hinv : specialistExclusive db) : specialistExclusive (speechStep db ev s env).1 := by
  simp only [speechStep]
  split
  · exact hinv
  · have h1 := exclusive_ensureCall db ev hinv
    have h2 := exclusive_persistBlock (ensureCall db ev).1 (ensureCall db ev).2.1
      (ensureCall db ev).2.2 s env h1
    split
    · next p hp => exact exclusive_teacherStep _ _ _ _ _ p hp h2
    · exact exclusive_conversationStep _ _ _ _ h2

theorem exclusive_POST (db : Db) (ev : Event) (env : Env)
    (hinv : specialistExclusive db) : specialistExclusive (POST db ev env).1 := by
  simp only [POST, POSTtail]
  split
  · exact hinv
  · split
    · exact exclusive_terminalStep db ev env hinv
    · have hinv0 : specialistExclusive
          (if ev.callStatus == some "in-progress" then connectStep db ev else db) := by
        split
        · exact exclusive_connectStep db ev hinv
        · exact hinv
      split
      · exact hinv0
      · split
        · split
          · exact exclusive_speechStep _ _ _ _ hinv0
          · exact hinv0
        · exact hinv0

theorem exclusive_runEvents (l : List (Event × Env)) (db : Db)
    (hinv : specialistExclusive db) : specialistExclusive (runEvents db l) := by
  induction l generalizing db with
  | nil => exact hinv
  | cons pe t ih =>
    have : runEvents db (pe :: t) = runEvents (POST db pe.1 pe.2).1 t := by
      simp [runEvents]
    rw [this]
    exact ih _ (exclusive_POST db pe.1 pe.2 hinv)

set_option maxRecDepth 100000

/-- Claim C3: in every state reachable by webhook events from a state
satisfying the exclusivity invariant, each counselor is assigned to at most
one open call and is busy while assigned; `findAvailableCounselor` only
ever selects an available counselor; and with one available counselor and
two escalating calls, the first is bridged and the second gets the
no-specialist document, leaving exactly one call assigned. -/
theorem specialist_exclusive_always :
    (∀ (db : Db) (evs : List (Event × Env)), specialistExclusive db →
       specialistExclusive (runEvents db evs)) ∧
    (∀ (db : Db) (u : User), findAvailableCounselor db = some u →
       u ∈ db.users ∧ u.role = "counselor" ∧ u.status = "available") ∧
    ((POST dbTwoCalls evCrisis1 envBenign).2 = xmlResp (dialDoc "+1999") ∧
     (POST (POST dbTwoCalls evCrisis1 envBenign).1 evCrisis2 envBenign).2 =
       xmlResp noCounselorDoc ∧
     ((runEvents dbTwoCalls [(evCrisis1, envBenign), (evCrisis2, envBenign)]).calls.filter
        (fun c => c.assignedCounselorId == some 2)).length = 1) := by
  refine ⟨fun db evs hinv => exclusive_runEvents evs db hinv, ?_, ?_⟩
  · intro db u hf
    have hf2 : db.users.find? (fun u => u.role == "counselor" && u.status == "available")
        = some u := hf
    have hp : (u.role == "counselor" && u.status == "available") = true := by
      have := List.find?_some (p := fun u : User => u.role == "counselor" && u.status == "available")
        (a := u) (l := db.users) hf2
      simpa using this
    have hsplit : (u.role == "counselor") = true ∧ (u.status == "available") = true := by
      simpa [Bool.and_eq_true] using hp
    exact ⟨List.mem_of_find?_eq_some hf2, by simpa using hsplit.1, by simpa using hsplit.2⟩
  · refine ⟨?_, ?_, ?_⟩ <;> decide

theorem specialist_exclusive_always_witness :
    specialistExclusive dbTwoCalls ∧
    specialistExclusive (runEvents dbTwoCalls [(evCrisis1, envBenign), (evCrisis2, envBenign)]) :=
  ⟨by unfold specialistExclusive; decide, specialist_exclusive_always.1 dbTwoCalls
    [(evCrisis1, envBenign), (evCrisis2, envBenign)] (by unfold specialistExclusive; decide)⟩

theorem getAIResponse_escalation_sound (db : Db) (i : String) (cid : Nat) (o : CohereOutcome)
    (h : (getAIResponse db i cid o).1.needsEscalation = true) : needsEscalationOf i = true := by
  unfold getAIResponse at h
  split at h
  · exact absurd h (by simp)
  · split at h
    · exact absurd h (by simp)
    · cases o with
      | ok t => exact h
      | timeout => exact absurd h (by simp)
      | failure => exact absurd h (by simp)

theorem compInv_of_calls_eq (cid : Nat) (db db2 : Db) (hc : db2.calls = db.calls)
    (hn : db.nextId ≤ db2.nextId) (h : compInv cid db) : compInv cid db2 := by
  obtain ⟨h1, h2, h3⟩ := h
  refine ⟨?_, lt_of_lt_of_le h2 hn, ?_⟩
  · intro x hx
    rw [hc] at hx
    exact lt_of_lt_of_le (h1 x hx) hn
  · intro x hx
    rw [hc] at hx
    exact h3 x hx

theorem compInv_updateCall (cid : Nat) (db : Db) (cid0 : Nat) (f : Call → Call)
    (hf : ∀ x, (f x).id = x.id ∧ ((f x).status = x.status ∨ (f x).status = "completed"))
    (h : compInv cid db) : compInv cid (updateCall db cid0 f) := by
  obtain ⟨h1, h2, h3⟩ := h
  refine ⟨?_, h2, ?_⟩
  · intro x hx
    simp only [updateCall] at hx
    obtain ⟨x0, hx0, rfl⟩ := List.mem_map.1 hx
    by_cases hc : x0.id == cid0
    · rw [if_pos hc, (hf x0).1]
      exact h1 x0 hx0
    · rw [if_neg hc]
      exact h1 x0 hx0
  · intro x hx hid
    simp only [updateCall] at hx
    obtain ⟨x0, hx0, rfl⟩ := List.mem_map.1 hx
    by_cases hc : x0.id == cid0
    · rw [if_pos hc] at hid ⊢
      rcases (hf x0).2 with hst | hst
      · rw [hst]
        exact h3 x0 hx0 (by rw [← (hf x0).1, hid])
      · exact hst
    · rw [if_neg hc] at hid ⊢
      exact h3 x0 hx0 hid

theorem compInv_addCall (cid : Nat) (db : Db) (uid : Nat) (sid st : String) (cv : Option Nat)
    (h : compInv cid db) : compInv cid (addCall db uid sid st cv).1 := by
  obtain ⟨h1, h2, h3⟩ := h
  have hcalls : (addCall db uid sid st cv).1.calls
      = db.calls ++ [⟨db.nextId, sid, uid, st, none, cv, none⟩] := rfl
  have hnext : (addCall db uid sid st cv).1.nextId = db.nextId + 1 := rfl
  refine ⟨?_, by rw [hnext]; exact Nat.lt_succ_of_lt h2, ?_⟩
  · intro x hx
    rw [hcalls] at hx
    rw [hnext]
    rcases List.mem_append.1 hx with hx | hx
    · exact Nat.lt_succ_of_lt (h1 x hx)
    · rw [List.mem_singleton] at hx
      subst hx
      exact Nat.lt_succ_self _
  · intro x hx hid
    rw [hcalls] at hx
    rcases List.mem_append.1 hx with hx | hx
    · exact h3 x hx hid
    · rw [List.mem_singleton] at hx
      subst hx
      exact absurd hid (by simp; omega)

theorem compInv_terminalStep (cid : Nat) (db : Db) (ev : Event) (env : Env)
    (h : compInv cid db) : compInv cid (terminalStep db ev env).1 := by
  unfold terminalStep
  split
  · next existingCall hfind =>
    split
    · cases hca : existingCall.assignedCounselorId with
      | none =>
        refine compInv_updateCall cid db _ _ ?_ h
        intro x
        exact ⟨rfl, Or.inr rfl⟩
      | some cid2 =>
        refine compInv_of_calls_eq cid _ _ ?_ ?_
          (compInv_updateCall cid db existingCall.id
            (fun x => ({ x with status := "completed", endedAt := some env.now } : Call))
            (fun x => ⟨rfl, Or.inr rfl⟩) h)
        · rfl
        · exact le_refl _
    · exact h
  · exact h

theorem compInv_upsert (cid : Nat) (db : Db) (phone : String)
    (h : compInv cid db) : compInv cid (upsertUserByPhone db phone).1 := by
  unfold upsertUserByPhone
  split
  · exact h
  · refine compInv_of_calls_eq cid _ _ ?_ ?_ h
    · rfl
    · exact Nat.le_succ _

theorem compInv_connectStep (cid : Nat) (db : Db) (ev : Event)
    (h : compInv cid db) : compInv cid (connectStep db ev) := by
  unfold connectStep
  split
  · exact h
  · refine compInv_addCall cid _ _ _ _ _ ?_
    refine compInv_of_calls_eq cid _ _ ?_ ?_ (compInv_upsert cid db ev.callerPhone h)
    · rfl
    · exact Nat.le_succ _

theorem compInv_ensureCall (cid : Nat) (db : Db) (ev : Event)
    (h : compInv cid db) : compInv cid (ensureCall db ev).1 := by
  unfold ensureCall
  split
  · exact h
  · refine compInv_addCall cid _ _ _ _ _ ?_
    refine compInv_of_calls_eq cid _ _ ?_ ?_ (compInv_upsert cid db ev.callerPhone h)
    · rfl
    · exact Nat.le_succ _

theorem compInv_persistBlock (cid : Nat) (db : Db) (call : Call) (convObj : Option Nat)
    (s : String) (env : Env) (h : compInv cid db) :
    compInv cid (persistUserMsgBlock db call convObj s env).1 := by
  have hpre : compInv cid (addConversation db call.userId).1 := by
    refine compInv_of_calls_eq cid _ _ ?_ ?_ h
    · rfl
    · exact Nat.le_succ _
  have hattach : compInv cid
      (updateCall (addConversation db call.userId).1 call.id
        (fun c => { c with conversationId := some (addConversation db call.userId).2.id })) :=
    compInv_updateCall cid _ _ _ (fun x => ⟨rfl, Or.inl rfl⟩) hpre
  simp only [persistUserMsgBlock]
  split
  · exact h
  · split
    · split
      · exact hattach
      · refine compInv_of_calls_eq cid _ _ ?_ ?_ hattach
        · rfl
        · exact Nat.le_succ _
    · split
      · exact h
      · refine compInv_of_calls_eq cid _ _ ?_ ?_ h
        · rfl
        · exact Nat.le_succ _

theorem saveEntries_nextId (cv : Option Nat) (l : List AIGradeEntry) (acc : Db × Nat) :
    acc.1.nextId ≤ (l.foldl (saveEntryStep cv) acc).1.nextId := by
  induction l generalizing acc with
  | nil => exact le_refl _
  | cons e t ih =>
    have hstep : acc.1.nextId ≤ (saveEntryStep cv acc e).1.nextId := by
      simp only [saveEntryStep]
      split
      · exact le_refl _
      · split <;> split <;>
          first
            | exact le_refl _
            | exact Nat.le_succ _
            | exact (show acc.1.nextId ≤ acc.1.nextId + 1 + 1 from by omega)
    rw [List.foldl_cons]
    exact le_trans hstep (ih _)

theorem classroomFor_nextId (db : Db) (caller : User) (pr : AIExtractResult) :
    db.nextId ≤ (classroomFor db caller pr).1.nextId := by
  simp only [classroomFor]
  split
  · split
    · exact le_refl _
    · exact Nat.le_succ _
  · exact le_refl _

theorem compInv_teacherSuccess (cid : Nat) (db : Db) (call : Call) (convObj : Option Nat)
    (caller : User) (pr : AIExtractResult) (h : compInv cid db) :
    compInv cid (teacherSuccess db call convObj caller pr).1 := by
  obtain ⟨hcu, hcc⟩ := classroomFor_state db caller pr
  obtain ⟨hsu, hsc⟩ := saveEntries_state (classroomFor db caller pr).2 pr.entries
    ((classroomFor db caller pr).1, 0)
  have h1 : compInv cid (pr.entries.foldl (saveEntryStep (classroomFor db caller pr).2)
      ((classroomFor db caller pr).1, 0)).1 := by
    refine compInv_of_calls_eq cid _ _ (hsc.trans hcc) ?_ h
    exact le_trans (classroomFor_nextId db caller pr)
      (saveEntries_nextId (classroomFor db caller pr).2 pr.entries
        ((classroomFor db caller pr).1, 0))
  cases convObj with
  | none =>
    simp only [teacherSuccess]
    have h2 : compInv cid (addConversation (pr.entries.foldl
        (saveEntryStep (classroomFor db caller pr).2)
        ((classroomFor db caller pr).1, 0)).1 call.userId).1 := by
      refine compInv_of_calls_eq cid _ _ ?_ ?_ h1
      · rfl
      · exact Nat.le_succ _
    have h3 := compInv_updateCall cid _ call.id
      (fun c => ({ c with conversationId := some (addConversation (pr.entries.foldl
        (saveEntryStep (classroomFor db caller pr).2)
        ((classroomFor db caller pr).1, 0)).1 call.userId).2.id } : Call))
      (fun x => ⟨rfl, Or.inl rfl⟩) h2
    refine compInv_of_calls_eq cid _ _ ?_ ?_ h3
    · rfl
    · exact Nat.le_succ _
  | some cv =>
    simp only [teacherSuccess]
    refine compInv_of_calls_eq cid _ _ ?_ ?_ h1
    · rfl
    · exact Nat.le_succ _

theorem compInv_teacherStep (cid : Nat) (db : Db) (call : Call) (convObj : Option Nat)
    (s : String) (env : Env) (p : Db × HttpResponse)
    (hp : teacherStep db call convObj s env = some p)
    (h : compInv cid db) : compInv cid p.1 := by
  unfold teacherStep at hp
  split at hp
  · exact absurd hp (by simp)
  · split at hp
    · exact absurd hp (by simp)
    · split at hp
      · exact absurd hp (by simp)
      · split at hp
        · exact absurd hp (by simp)
        · simp only [Option.some.injEq] at hp
          subst hp
          exact compInv_teacherSuccess cid db call convObj _ (adaptedExtract s env) h

theorem getAIResponse_nextId (db : Db) (i : String) (cid : Nat) (o : CohereOutcome) :
    db.nextId ≤ (getAIResponse db i cid o).2.nextId := by
  unfold getAIResponse
  split
  · exact le_refl _
  · split
    · exact le_refl _
    · cases o with
      | ok t =>
        split
        · exact Nat.le_succ _
        · exact (show db.nextId ≤ db.nextId + 1 + 1 from by omega)
      | timeout =>
        split
        · exact le_refl _
        · exact Nat.le_succ _
      | failure =>
        split
        · exact le_refl _
        · exact Nat.le_succ _

theorem compInv_conversationStep (cid : Nat) (db : Db) (call : Call) (s : String) (env : Env)
    (hq : needsEscalationOf s = false)
    (h : compInv cid db) : compInv cid (conversationStep db call s env).1 := by
  obtain ⟨hu, hc, _⟩ := getAIResponse_state db s call.id env.cohere
  have h1 : compInv cid (getAIResponse db s call.id env.cohere).2 :=
    compInv_of_calls_eq cid db _ hc (getAIResponse_nextId db s call.id env.cohere) h
  simp only [conversationStep]
  split
  · next hesc =>
    exact absurd (getAIResponse_escalation_sound db s call.id env.cohere hesc)
      (by rw [hq]; exact Bool.false_ne_true)
  · exact h1

theorem compInv_speechStep (cid : Nat) (db : Db) (ev : Event) (s : String) (env : Env)
    (hq : needsEscalationOf s = false) (h : compInv cid db) :
    compInv cid (speechStep db ev s env).1 := by
  simp only [speechStep]
  split
  · exact h
  · have h1 := compInv_ensureCall cid db ev h
    have h2 := compInv_persistBlock cid (ensureCall db ev).1 (ensureCall db ev).2.1
      (ensureCall db ev).2.2 s env h1
    split
    · next p hp => exact compInv_teacherStep cid _ _ _ _ _ p hp h2
    · exact compInv_conversationStep cid _ _ _ _ hq h2

theorem compInv_POST (cid : Nat) (db : Db) (ev : Event) (env : Env)
    (hq : ∀ s, ev.speechResult = some s → needsEscalationOf s = false)
    (h : compInv cid db) : compInv cid (POST db ev env).1 := by
  simp only [POST, POSTtail]
  split
  · exact h
  · split
    · exact compInv_terminalStep cid db ev env h
    · have h0 : compInv cid
          (if ev.callStatus == some "in-progress" then connectStep db ev else db) := by
        split
        · exact compInv_connectStep cid db ev h
        · exact h
      split
      · exact h0
      · split
        · next s hs =>
          split
          · exact compInv_speechStep cid _ ev s env (hq s hs) h0
          · exact h0
        · exact h0

theorem compInv_runEvents (cid : Nat) (l : List (Event × Env)) :
    ∀ db : Db, (∀ pe ∈ l, ∀ s, pe.1.speechResult = some s → needsEscalationOf s = false) →
      compInv cid db → compInv cid (runEvents db l) := by
  induction l with
  | nil => exact fun db _ h => h
  | cons pe t ih =>
    intro db hq h
    have hstep : runEvents db (pe :: t) = runEvents (POST db pe.1 pe.2).1 t := by
      simp [runEvents]
    rw [hstep]
    exact ih _ (fun q hm => hq q (List.mem_cons_of_mem pe hm))
      (compInv_POST cid db pe.1 pe.2 (hq pe (List.mem_cons_self pe t)) h)

/-- Claim C4 counterexample: the call of `dbCompletedCall` is `completed`,
yet a later escalating utterance event moves it to `counselor_assigned`. -/
theorem completed_call_regression_counterexample :
    ((findCallBySid dbCompletedCall "CA1").map (fun c => c.status) = some "completed") ∧
    ((findCallBySid (POST dbCompletedCall evCrisis1 envBenign).1 "CA1").map (fun c => c.status)
      = some "counselor_assigned") :=
  ⟨by decide, by decide⟩

/-- Claim C4 (amended): once a Call is completed, any further sequence of
events whose utterances (when present) contain no escalation keyword —
terminal and connect duplicates included — leaves its status `completed`;
by the counterexample, an utterance with an escalation keyword and an
available counselor can move it back to `counselor_assigned`. -/
theorem completed_status_stable_without_escalation
    (db : Db) (evs : List (Event × Env)) (cid : Nat)
    (h : compInv cid db)
    (hq : ∀ pe ∈ evs, ∀ s, pe.1.speechResult = some s → needsEscalationOf s = false) :
    ∀ x ∈ (runEvents db evs).calls, x.id = cid → x.status = "completed" :=
  (compInv_runEvents cid evs db hq h).2.2

theorem completed_status_stable_witness :
    ((runEvents dbCompletedCall [(evTermCA1, envBenign), (evHello, envBenign)]).calls.all
      (fun x => !(x.id == 2) || (x.status == "completed"))) = true := by
  have h := completed_status_stable_without_escalation dbCompletedCall
    [(evTermCA1, envBenign), (evHello, envBenign)] 2 (by unfold compInv; decide)
    (by
      intro pe hpe s hs
      rcases List.mem_cons.1 hpe with rfl | hpe2
      · exact Option.noConfusion hs
      · rcases List.mem_cons.1 hpe2 with rfl | h3
        · obtain rfl : "hello there" = s := by injection hs
          decide
        · exact absurd h3 (List.not_mem_nil pe))
  rw [List.all_eq_true]
  intro x hx
  by_cases hid : x.id = 2
  · simp [h x hx hid]
  · simp [hid]

theorem countUserMsgs_addMessage (db : Db) (cv2 : Nat) (r2 c2 : String) (cv : Nat) (s : String) :
    countUserMsgs (addMessage db cv2 r2 c2).1 cv s =
      countUserMsgs db cv s + (if (cv2 == cv && (r2 == "user") && (c2 == s)) = true then 1 else 0) := by
  unfold countUserMsgs addMessage
  simp only [List.filter_append, List.length_append]
  congr 1
  cases hp : (cv2 == cv && (r2 == "user") && (c2 == s)) with
  | true => simp [List.filter, hp]
  | false => simp [List.filter, hp]

theorem countUserMsgs_eq_zero (db : Db) (cv : Nat) (s : String)
    (h : findMsg db cv "user" s = none) : countUserMsgs db cv s = 0 := by
  unfold findMsg at h
  unfold countUserMsgs
  rw [List.length_eq_zero, List.filter_eq_nil_iff]
  intro a ha
  have := List.find?_eq_none.1 h a ha
  simpa using this

theorem countUserMsgs_dedupe (db : Db) (cv2 : Nat) (i : String) (cv : Nat) (s : String)
    (h : countUserMsgs db cv s ≤ 1) :
    countUserMsgs (if (findMsg db cv2 "user" i).isSome then db
      else (addMessage db cv2 "user" i).1) cv s ≤ 1 := by
  split
  · exact h
  · next hnone =>
    rw [countUserMsgs_addMessage]
    by_cases hcv : cv2 = cv
    · by_cases hi : i = s
      · have h0 : countUserMsgs db cv s = 0 := by
          apply countUserMsgs_eq_zero
          rw [← hcv, ← hi]
          exact Option.not_isSome_iff_eq_none.1 hnone
        rw [h0]
        split <;> omega
      · rw [if_neg (show ¬(cv2 == cv && (("user":String) == "user") && (i == s)) = true by
          simp [hi])]
        simpa using h
    · rw [if_neg (show ¬(cv2 == cv && (("user":String) == "user") && (i == s)) = true by
        simp [hcv])]
      simpa using h

theorem countUserMsgs_getAIResponse (db : Db) (i : String) (cid : Nat) (o : CohereOutcome)
    (cv : Nat) (s : String) (h : countUserMsgs db cv s ≤ 1) :
    countUserMsgs (getAIResponse db i cid o).2 cv s ≤ 1 := by
  unfold getAIResponse
  split
  · exact h
  · split
    · exact h
    · next conversation hconv =>
      have h1 := countUserMsgs_dedupe db conversation.id i cv s h
      cases o with
      | ok t =>
        dsimp only
        rw [countUserMsgs_addMessage]
        have hz : (conversation.id == cv && (("assistant" : String) == "user") &&
            ((if t = "" then "I'm here to listen." else t) == s)) = false := by
          have hx : (("assistant" : String) == "user") = false := rfl
          simp [hx]
        rw [hz]
        simpa using h1
      | timeout => exact h1
      | failure => exact h1

theorem findUserById_updateUser (db : Db) (uid : Nat) (f : User → User)
    (hf : ∀ u, (f u).id = u.id) (q : Nat) :
    findUserById (updateUser db uid f) q =
      (findUserById db q).map (fun u => if u.id == uid then f u else u) := by
  unfold findUserById updateUser
  exact find?_map_invariant _ _ (fun u => by by_cases h : u.id == uid <;> simp [h, hf]) _

theorem conversationStep_preserves (db : Db) (c0 : Call) (s : String) (env : Env)
    (sid : String) (c : Call) (q : Nat)
    (hfind : findCallBySid db sid = some c) :
    (∃ c2, findCallBySid (conversationStep db c0 s env).1 sid = some c2 ∧
      c2.conversationId = c.conversationId ∧ c2.userId = c.userId) ∧
    (∀ u2, findUserById (conversationStep db c0 s env).1 q = some u2 →
      ∃ u1, findUserById db q = some u1 ∧ u2.role = u1.role) ∧
    (conversationStep db c0 s env).1.conversations = db.conversations ∧
    (∀ cv s2, countUserMsgs db cv s2 ≤ 1 →
      countUserMsgs (conversationStep db c0 s env).1 cv s2 ≤ 1) ∧
    (conversationStep db c0 s env).2.body.isSome = true := by
  obtain ⟨hu, hc, hcvs⟩ := getAIResponse_state db s c0.id env.cohere
  have hfind1 : findCallBySid (getAIResponse db s c0.id env.cohere).2 sid = some c := by
    unfold findCallBySid
    rw [hc]
    exact hfind
  have hfu1 : ∀ r, findUserById (getAIResponse db s c0.id env.cohere).2 r
      = findUserById db r := by
    intro r
    unfold findUserById
    rw [hu]
  simp only [conversationStep]
  split
  · split
    · next counselor hfound =>
      refine ⟨⟨(if c.id == c0.id then ({ c with status := "counselor_assigned", assignedCounselorId := some counselor.id } : Call) else c), ?_, ?_, ?_⟩, ?_, ?_, ?_, rfl⟩
      · show findCallBySid (updateUser (updateCall _ _ _) _ _) sid = _
        rw [findCallBySid_updateUser,
          findCallBySid_updateCall _ c0.id (fun x => ({ x with status := "counselor_assigned", assignedCounselorId := some counselor.id } : Call)) (fun x => rfl) sid,
          show findCallBySid (addEscalation (getAIResponse db s c0.id env.cohere).2
            c0.id counselor.id _).1 sid
            = findCallBySid (getAIResponse db s c0.id env.cohere).2 sid from rfl,
          hfind1]
        rfl
      · by_cases hx : c.id == c0.id <;> simp [hx]
      · by_cases hx : c.id == c0.id <;> simp [hx]
      · intro u2 h2
        rw [findUserById_updateUser _ counselor.id (fun u => ({ u with status := "busy" } : User)) (fun u => rfl) q] at h2
        rw [show findUserById (updateCall (addEscalation
            (getAIResponse db s c0.id env.cohere).2 c0.id counselor.id _).1 c0.id _) q
            = findUserById (getAIResponse db s c0.id env.cohere).2 q from rfl, hfu1] at h2
        obtain ⟨u1, hu1, rfl⟩ := Option.map_eq_some'.1 h2
        refine ⟨u1, hu1, ?_⟩
        by_cases hx : u1.id == counselor.id <;> simp [hx]
      · show (getAIResponse db s c0.id env.cohere).2.conversations = db.conversations
        exact hcvs
      · intro cv s2 hcnt
        show countUserMsgs (getAIResponse db s c0.id env.cohere).2 cv s2 ≤ 1
        exact countUserMsgs_getAIResponse db s c0.id env.cohere cv s2 hcnt
    · refine ⟨⟨c, hfind1, rfl, rfl⟩, ?_, hcvs, ?_, rfl⟩
      · intro u2 h2
        rw [hfu1] at h2
        exact ⟨u2, h2, rfl⟩
      · intro cv s2 hcnt
        exact countUserMsgs_getAIResponse db s c0.id env.cohere cv s2 hcnt
  · refine ⟨⟨c, hfind1, rfl, rfl⟩, ?_, hcvs, ?_, rfl⟩
    · intro u2 h2
      rw [hfu1] at h2
      exact ⟨u2, h2, rfl⟩
    · intro cv s2 hcnt
      exact countUserMsgs_getAIResponse db s c0.id env.cohere cv s2 hcnt

theorem speech_post_shape (db : Db) (ev : Event) (env : Env) (s : String) (c : Call)
    (cv : Nat) (conv : Conversation)
    (hfail : env.fail = none)
    (hterm : isTerminalEvent ev = false)
    (hs : ev.speechResult = some s)
    (hsne : String.mk (trimL s.toList) ≠ "")
    (hfind : findCallBySid db ev.callSid = some c)
    (hcv : c.conversationId = some cv)
    (hconv : findConvById db cv = some conv)
    (hrole : ∀ u, findUserById db c.userId = some u → u.role ≠ "teacher") :
    POST db ev env = conversationStep
      (if (findMsg db cv "user" s).isSome then db else (addMessage db cv "user" s).1) c s env := by
  have hs0 : s ≠ "" := fun h0 => hsne (by rw [h0]; rfl)
  have hcid : conv.id = cv := by
    have hconv2 : db.conversations.find? (fun x => x.id == cv) = some conv := hconv
    have := List.find?_some (p := fun x : Conversation => x.id == cv) (a := conv)
      (l := db.conversations) hconv2
    simpa using this
  have hens : ensureCall db ev = (db, c, some cv) := by
    unfold ensureCall
    rw [hfind]
    simp [hcv, hconv, hcid]
  have hpb : persistUserMsgBlock db c (some cv) s env =
      ((if (findMsg db cv "user" s).isSome then db else (addMessage db cv "user" s).1),
        c, some cv) := by
    simp only [persistUserMsgBlock]
    rw [if_neg (show ¬(env.fail == some FailPoint.msgSave) = true by simp [hfail])]
  have hus1 : (if (findMsg db cv "user" s).isSome then db
      else (addMessage db cv "user" s).1).users = db.users := by split <;> rfl
  have hteach : teacherStep (if (findMsg db cv "user" s).isSome then db
      else (addMessage db cv "user" s).1) c (some cv) s env = none := by
    unfold teacherStep
    rw [if_neg (show ¬(env.fail == some FailPoint.grade) = true by simp [hfail])]
    rw [show findUserById (if (findMsg db cv "user" s).isSome then db
        else (addMessage db cv "user" s).1) c.userId = findUserById db c.userId from by
      unfold findUserById; rw [hus1]]
    cases hfu : findUserById db c.userId with
    | none => rfl
    | some caller =>
      dsimp only
      rw [if_pos (hrole caller hfu)]
  have hsp : speechStep db ev s env = conversationStep
      (if (findMsg db cv "user" s).isSome then db else (addMessage db cv "user" s).1)
      c s env := by
    simp only [speechStep]
    rw [if_neg (show ¬(env.fail == some FailPoint.speech) = true by simp [hfail])]
    simp only [hens, hpb, hteach]
  unfold POST
  rw [if_neg (show ¬(env.fail == some FailPoint.outer) = true by simp [hfail])]
  rw [if_neg (show ¬(isTerminalEvent ev = true) by simp [hterm])]
  have hdb0 : (if ev.callStatus == some "in-progress" then connectStep db ev else db) = db := by
    split
    · unfold connectStep
      rw [hfind]
    · rfl
  rw [hdb0]
  unfold POSTtail
  rw [if_neg (show ¬speechFalsy ev.speechResult = true by rw [hs]; simp [speechFalsy, hs0])]
  simp only [hs]
  rw [if_pos hsne]
  exact hsp

/-- Claim C5: delivering the same non-empty utterance twice for the same
conversation leaves at most one stored `user` message with that content,
while each delivery still returns a non-empty voice-response document. -/
theorem duplicate_utterance_deduped
    (db : Db) (ev : Event) (env env2 : Env) (s : String) (c : Call) (cv : Nat)
    (conv : Conversation)
    (hfail : env.fail = none) (hfail2 : env2.fail = none)
    (hterm : isTerminalEvent ev = false)
    (hs : ev.speechResult = some s)
    (hsne : String.mk (trimL s.toList) ≠ "")
    (hfind : findCallBySid db ev.callSid = some c)
    (hcv : c.conversationId = some cv)
    (hconv : findConvById db cv = some conv)
    (hrole : ∀ u, findUserById db c.userId = some u → u.role ≠ "teacher")
    (hcount : countUserMsgs db cv s ≤ 1) :
    countUserMsgs (POST db ev env).1 cv s ≤ 1 ∧
    countUserMsgs (POST (POST db ev env).1 ev env2).1 cv s ≤ 1 ∧
    (POST db ev env).2.body.isSome = true ∧
    (POST (POST db ev env).1 ev env2).2.body.isSome = true := by
  have h1 := speech_post_shape db ev env s c cv conv hfail hterm hs hsne hfind hcv hconv hrole
  have hdb1calls : (if (findMsg db cv "user" s).isSome then db
      else (addMessage db cv "user" s).1).calls = db.calls := by split <;> rfl
  have hdb1convs : (if (findMsg db cv "user" s).isSome then db
      else (addMessage db cv "user" s).1).conversations = db.conversations := by split <;> rfl
  have hdb1users : (if (findMsg db cv "user" s).isSome then db
      else (addMessage db cv "user" s).1).users = db.users := by split <;> rfl
  have hfind1 : findCallBySid (if (findMsg db cv "user" s).isSome then db
      else (addMessage db cv "user" s).1) ev.callSid = some c := by
    unfold findCallBySid
    rw [hdb1calls]
    exact hfind
  have hcnt1 : countUserMsgs (if (findMsg db cv "user" s).isSome then db
      else (addMessage db cv "user" s).1) cv s ≤ 1 := countUserMsgs_dedupe db cv s cv s hcount
  obtain ⟨⟨c2, hfind2, hcv2, huid2⟩, hrole2, hconvs2, hcnt2, hbody1⟩ :=
    conversationStep_preserves (if (findMsg db cv "user" s).isSome then db
      else (addMessage db cv "user" s).1) c s env ev.callSid c c.userId hfind1
  have hout1cnt : countUserMsgs (POST db ev env).1 cv s ≤ 1 := by
    rw [h1]
    exact hcnt2 cv s hcnt1
  have hout1find : findCallBySid (POST db ev env).1 ev.callSid = some c2 := by
    rw [h1]
    exact hfind2
  have hout1cv : c2.conversationId = some cv := hcv2.trans hcv
  have hout1conv : findConvById (POST db ev env).1 cv = some conv := by
    rw [h1]
    unfold findConvById
    rw [hconvs2, hdb1convs]
    exact hconv
  have hout1role : ∀ u, findUserById (POST db ev env).1 c2.userId = some u →
      u.role ≠ "teacher" := by
    intro u hu
    rw [h1, huid2] at hu
    obtain ⟨u1, hu1, hru⟩ := hrole2 u hu
    have hu1db : findUserById db c.userId = some u1 := by
      rw [← hu1]
      unfold findUserById
      rw [hdb1users]
    rw [hru]
    exact hrole u1 hu1db
  have hbody1f : (POST db ev env).2.body.isSome = true := by
    rw [h1]
    exact hbody1
  have h2 := speech_post_shape (POST db ev env).1 ev env2 s c2 cv conv hfail2 hterm hs hsne
    hout1find hout1cv hout1conv hout1role
  have hd2calls : (if (findMsg (POST db ev env).1 cv "user" s).isSome then (POST db ev env).1
      else (addMessage (POST db ev env).1 cv "user" s).1).calls = (POST db ev env).1.calls := by
    split <;> rfl
  have hfind21 : findCallBySid (if (findMsg (POST db ev env).1 cv "user" s).isSome
      then (POST db ev env).1
      else (addMessage (POST db ev env).1 cv "user" s).1) ev.callSid = some c2 := by
    unfold findCallBySid
    rw [hd2calls]
    exact hout1find
  have hcnt21 : countUserMsgs (if (findMsg (POST db ev env).1 cv "user" s).isSome
      then (POST db ev env).1
      else (addMessage (POST db ev env).1 cv "user" s).1) cv s ≤ 1 :=
    countUserMsgs_dedupe (POST db ev env).1 cv s cv s hout1cnt
  obtain ⟨_, _, _, hcnt22, hbody2⟩ :=
    conversationStep_preserves (if (findMsg (POST db ev env).1 cv "user" s).isSome
      then (POST db ev env).1
      else (addMessage (POST db ev env).1 cv "user" s).1) c2 s env2 ev.callSid c2 c2.userId
      hfind21
  refine ⟨hout1cnt, ?_, hbody1f, ?_⟩
  · rw [h2]
    exact hcnt22 cv s hcnt21
  · rw [h2]
    exact hbody2

theorem duplicate_utterance_deduped_witness :
    countUserMsgs (POST (POST dbOpenCall evHello envBenign).1 evHello envBenign).1
      3 "hello there" ≤ 1 ∧
    (POST (POST dbOpenCall evHello envBenign).1 evHello envBenign).2.body.isSome = true := by
  have h := duplicate_utterance_deduped dbOpenCall evHello envBenign envBenign "hello there"
    ⟨2, "CA1", 0, "ai_handling", none, some 3, none⟩ 3 ⟨3, 0⟩ rfl rfl (by decide) rfl
    (by decide) (by decide) (by decide) (by decide)
    (fun u hu => by
      have hval : findUserById dbOpenCall 0 = some ⟨0, "+1555", "user", "available"⟩ := by decide
      rw [hval] at hu
      rw [← Option.some.inj hu]
      decide)
    (by decide)
  exact ⟨h.2.1, h.2.2.2⟩

/-- Claim C6 counterexample: on a Cohere timeout `getAIResponse` has
already persisted the user's utterance as a Message (the idempotent insert
precedes the raced call), so "it does not persist anything on
timeout/failure paths" fails on a conversation that does not yet hold the
utterance. -/
theorem timeout_persists_user_message :
    (getAIResponse dbEmptyConv "hello" 1 .timeout).1 =
      ⟨"I'm taking a bit longer to respond. Please hold on.", false, ""⟩ ∧
    (getAIResponse dbEmptyConv "hello" 1 .timeout).2.messages = [⟨3, 2, "user", "hello"⟩] ∧
    dbEmptyConv.messages = [] :=
  ⟨by decide, by decide, rfl⟩

/-- Claim C6 (amended): on a completion-service timeout the engine returns
the fixed "taking a bit longer" reply with escalation flag false and empty
reason; the assistant reply is not persisted — the only possible write is
the idempotent insert of the user's utterance, performed before the raced
call, and when that utterance is already stored (as it is when the webhook
flow invokes the engine after its own insert) nothing is persisted. -/
theorem timeout_returns_fixed_reply
    (db : Db) (input : String) (callId : Nat) (call : Call) (conv : Conversation) (cv : Nat)
    (hc : findCallById db callId = some call)
    (hcv : call.conversationId = some cv)
    (hconv : findConvById db cv = some conv) :
    (getAIResponse db input callId .timeout).1 =
      ⟨"I'm taking a bit longer to respond. Please hold on.", false, ""⟩ ∧
    ((getAIResponse db input callId .timeout).2 = db ∨
      (getAIResponse db input callId .timeout).2.messages =
        db.messages ++ [⟨db.nextId, conv.id, "user", input⟩]) ∧
    ((findMsg db conv.id "user" input).isSome = true →
      (getAIResponse db input callId .timeout).2 = db) := by
  have hbind : call.conversationId.bind (findConvById db) = some conv := by
    rw [hcv]; exact hconv
  by_cases hm : (findMsg db conv.id "user" input).isSome
  · have he : getAIResponse db input callId .timeout =
        (⟨"I'm taking a bit longer to respond. Please hold on.", false, ""⟩, db) := by
      simp [getAIResponse, hc, hbind, hm]
    rw [he]
    exact ⟨rfl, Or.inl rfl, fun _ => rfl⟩
  · have he : getAIResponse db input callId .timeout =
        (⟨"I'm taking a bit longer to respond. Please hold on.", false, ""⟩,
          (addMessage db conv.id "user" input).1) := by
      simp [getAIResponse, hc, hbind, hm]
    rw [he]
    exact ⟨rfl, Or.inr rfl, fun hmm => absurd hmm hm⟩

theorem timeout_returns_fixed_reply_witness :
    (getAIResponse dbOpenCall "hi" 2 .timeout).1 =
      ⟨"I'm taking a bit longer to respond. Please hold on.", false, ""⟩ :=
  (timeout_returns_fixed_reply dbOpenCall "hi" 2
    ⟨2, "CA1", 0, "ai_handling", none, some 3, none⟩ ⟨3, 0⟩ 3 (by decide) rfl (by decide)).1

theorem needsEscalation_of_crisis (input : String) (h : hasCrisisTerm input = true) :
    needsEscalationOf input = true := by
  unfold hasCrisisTerm at h
  unfold needsEscalationOf
  simp only [Bool.or_eq_true] at h ⊢
  tauto

/-- Claim C7: on a successful completion call the escalation flag and
reason are a pure case-insensitive substring match of the raw utterance
against the lexicons — independent of the reply text `r` — and the crisis
lexicon takes precedence over the professional-request lexicon. -/
theorem escalation_is_keyword_based
    (db : Db) (input : String) (callId : Nat) (r : String) (call : Call) (conv : Conversation)
    (hc : findCallById db callId = some call)
    (hbind : call.conversationId.bind (findConvById db) = some conv) :
    (getAIResponse db input callId (.ok r)).1.needsEscalation = needsEscalationOf input ∧
    (getAIResponse db input callId (.ok r)).1.escalationReason = escalationReasonOf input ∧
    (hasCrisisTerm input = true → hasProfessionalTerm input = true →
      escalationReasonOf input = "crisis") := by
  refine ⟨?_, ?_, ?_⟩
  · unfold getAIResponse
    rw [hc]
    dsimp only
    rw [hbind]
  · unfold getAIResponse
    rw [hc]
    dsimp only
    rw [hbind]
  · intro h1 _
    unfold escalationReasonOf
    rw [needsEscalation_of_crisis input h1, if_pos rfl, if_pos h1]

theorem escalation_is_keyword_based_witness :
    (getAIResponse dbOpenCall "I need a therapist or I will kill myself" 2
      (.ok "some reply")).1.needsEscalation =
        needsEscalationOf "I need a therapist or I will kill myself" ∧
    escalationReasonOf "I need a therapist or I will kill myself" = "crisis" := by
  have h := escalation_is_keyword_based dbOpenCall
    "I need a therapist or I will kill myself" 2 "some reply"
    ⟨2, "CA1", 0, "ai_handling", none, some 3, none⟩ ⟨3, 0⟩ (by decide) (by decide)
  exact ⟨h.1, h.2.2 (by decide) (by decide)⟩

theorem extract_reply_aux (a : Option String) (d : String) (hd : d ≠ "") :
    ∃ rep, (if jsTruthy a then a else some d) = some rep ∧ rep ≠ "" := by
  cases a with
  | none =>
    rw [if_neg (show ¬jsTruthy none = true by decide)]
    exact ⟨d, rfl, hd⟩
  | some s =>
    by_cases hs : s = ""
    · subst hs
      rw [if_neg (show ¬jsTruthy (some "") = true by decide)]
      exact ⟨d, rfl, hd⟩
    · rw [if_pos (show jsTruthy (some s) = true by simp [jsTruthy, hs])]
      exact ⟨s, rfl, hs⟩

/-- Claim C9: the structured extraction pipeline never throws — it is a
total function whose every outcome carries a non-empty clarification or
confirmation line — and each failure mode (timeout, thrown error, missing
content, output unparseable as JSON even after quote repair) degrades to
the empty-entries result. -/
theorem extraction_failure_degrades :
    (∀ (text : String) (o : OpenAIOutcome), ∃ rep,
       (extractGradesWithOpenAI text o).assistantReply = some rep ∧ rep ≠ "") ∧
    (∀ text : String, (extractGradesWithOpenAI text .timeout).entries = [] ∧
       (extractGradesWithOpenAI text .errored).entries = [] ∧
       (extractGradesWithOpenAI text (.ok none)).entries = []) ∧
    (∀ text raw : String,
       parseJson (String.mk (jsonCandidate raw.toList)) = none →
       parseJson (String.mk (quoteFix (jsonCandidate raw.toList))) = none →
       (extractGradesWithOpenAI text (.ok (some raw))).entries = []) := by
  refine ⟨?_, ?_, ?_⟩
  · intro text o
    unfold extractGradesWithOpenAI
    split
    · exact ⟨_, rfl, by decide⟩
    · cases o with
      | timeout => exact ⟨_, rfl, by decide⟩
      | errored => exact ⟨_, rfl, by decide⟩
      | ok content =>
        cases content with
        | none => exact ⟨_, rfl, by decide⟩
        | some raw =>
          dsimp only
          split
          · exact ⟨_, rfl, by decide⟩
          · exact extract_reply_aux _ _ (by decide)
  · intro text
    refine ⟨?_, ?_, ?_⟩ <;> (unfold extractGradesWithOpenAI; split <;> rfl)
  · intro text raw h1 h2
    unfold extractGradesWithOpenAI
    split
    · rfl
    · dsimp only
      rw [h1, h2]
      rfl

theorem extraction_failure_degrades_witness :
    (extractGradesWithOpenAI "hi" (.ok (some "no json here"))).entries = [] ∧
    (extractGradesWithOpenAI "hi" .timeout).entries = [] :=
  ⟨extraction_failure_degrades.2.2 "hi" "no json here"
     (Option.isNone_iff_eq_none.mp (by decide)) (Option.isNone_iff_eq_none.mp (by decide)),
   (extraction_failure_degrades.2.1 "hi").1⟩

/-- Claim C8: at the documented example utterance the heuristic parser
yields students "Math" and "Biology" with no subject — not (Alice, Math, 92)
and (Alice, Biology, 88) as the parser's own doc comment and the spec
promise — and the webhook persists those two mis-attributed rows while
confirming "Saved 2 grade(s)". -/
theorem grade_parse_divergence :
    parseGrades "Alice: Math 92, Biology 88" =
      ⟨none, [⟨"Math", none, some ⟨false, 92, []⟩⟩, ⟨"Biology", none, some ⟨false, 88, []⟩⟩]⟩ ∧
    ((POST dbTeacherCall evTeachDictation envBenign).1.students.map (fun st => st.name) =
      ["Math", "Biology"]) ∧
    ((POST dbTeacherCall evTeachDictation envBenign).1.grades.map
        (fun g => (g.subject, g.value)) =
      [("General", ⟨false, 92, []⟩), ("General", ⟨false, 88, []⟩)]) ∧
    (POST dbTeacherCall evTeachDictation envBenign).2 =
      xmlResp (teacherDoc "Saved 2 grade(s). Would you like to add more grades?") :=
  ⟨by decide, by decide, by decide, by decide⟩

/-- Claim C10: the dictation-path reply is embedded into the voice-response
document verbatim — here the extractor's `assistantReply` containing `<`
reaches the document unescaped — whereas the conversational path's
`stripMarkup` would have removed those characters. -/
theorem teacher_reply_unsanitized :
    (POST dbTeacherCall evTeachMarkup envMarkup).2 = xmlResp (teacherDoc "Saved <b>ok</b>") ∧
    isInfixOfL "<".toList "Saved <b>ok</b>".toList = true ∧
    stripMarkup "Saved <b>ok</b>" = "Saved bok/b" :=
  ⟨by decide, by decide, by decide⟩

theorem webhook_response_always_valid_witness :
    responseOk evHello (POST dbOpenCall evHello envBenign).2 = true :=
  webhook_response_always_valid dbOpenCall evHello envBenign

theorem terminal_event_completes_idempotently_witness :
    (POST dbAssignedCall evTermCA1 envBenign).2 = emptyResp ∧
    POST (POST dbAssignedCall evTermCA1 envBenign).1 evTermCA1 envBenign =
      ((POST dbAssignedCall evTermCA1 envBenign).1, emptyResp) :=
  (terminal_event_completes_idempotently dbAssignedCall evTermCA1 envBenign envBenign
    ⟨2, "CA1", 0, "counselor_assigned", some 1, some 3, none⟩ rfl rfl (by decide) (by decide)
    (by decide)).2.2
